import Mathlib

/-!
Verification of the in-memory advisory index and query engine of
`github-advisory-mcp` (`src/datasources/local-repository.ts`,
`src/types/data-source.ts`), shallowly embedded in Lean 4.

Modelling conventions:
* JavaScript strings are Lean `String`s; JS string comparison (`<`, `>=`,
  `localeCompare`) is code-unit lexicographic comparison, embedded below as
  `lexLt` on `List Char` via `Char.toNat`.
* JS numbers are embedded as exact arithmetic: `ℚ` for the CVSS computation
  (every constant in the source is an exact decimal) and `ℤ` for pagination
  indices.
* `undefined` / `null` become `Option`; JS truthiness of an optional string
  (`if (options.x)`) is `truthyOpt` (false for `undefined` and for `""`).
* A thrown exception is `Option.none` in the result type.
-/

/-- JS `s.split(sep)` for a single-character separator, on `List Char`. -/
def splitChar (sep : Char) : List Char → List (List Char)
  | [] => [[]]
  | c :: cs =>
    match splitChar sep cs with
    | [] => if c = sep then [[], []] else [[c]]
    | r :: rs => if c = sep then [] :: r :: rs else (c :: r) :: rs

/-- Is `sub` a prefix of `hay`? (helper for JS `includes`/`startsWith`). -/
def prefAt (sub hay : List Char) : Bool :=
  match sub, hay with
  | [], _ => true
  | _ :: _, [] => false
  | a :: as, b :: bs => a = b && prefAt as bs

/-- JS `hay.includes(sub)` on `List Char`. -/
def hasSub (sub : List Char) : List Char → Bool
  | [] => prefAt sub []
  | c :: t => prefAt sub (c :: t) || hasSub sub t

/-- JS `s.startsWith(p)`. -/
def strStartsWith (s p : String) : Bool := prefAt p.data s.data

/-- JS `s.endsWith(p)`. -/
def strEndsWith (s p : String) : Bool := prefAt p.data.reverse s.data.reverse

/-- JS `hay.includes(sub)` on `String`. -/
def strIncludes (hay sub : String) : Bool := hasSub sub.data hay.data

/-- ASCII lower-casing of one character (the strings compared by the engine
are ASCII, so this coincides with JS `toLowerCase`). -/
def asciiLower (c : Char) : Char :=
  if 'A' ≤ c ∧ c ≤ 'Z' then Char.ofNat (c.toNat + 32) else c

/-- JS `s.toLowerCase()` (ASCII fragment). -/
def lowerStr (s : String) : String := String.mk (s.data.map asciiLower)

/-- Strict code-unit lexicographic comparison of JS strings (`a < b`). -/
def lexLt : List Char → List Char → Bool
  | _, [] => false
  | [], _ :: _ => true
  | a :: as, b :: bs =>
    a.toNat < b.toNat || (a.toNat = b.toNat && lexLt as bs)

/-- JS `a < b` on strings. -/
def strLtB (a b : String) : Bool := lexLt a.data b.data

/-- JS `a >= b` on strings (total order, so `a >= b ↔ ¬ a < b`). -/
def strGeB (a b : String) : Bool := !(strLtB a b)

/-- JS `a <= b` on strings, i.e. `a.localeCompare(b) <= 0` for code-unit
comparable strings. -/
def strLeB (a b : String) : Bool := !(strLtB b a)

/-- JS truthiness of an optional string: `undefined`, `null` and `""` are
falsy. -/
def truthyOpt : Option String → Bool
  | none => false
  | some s => s ≠ ""

/-- JS `x || d` for an optional string option field. -/
def jsOrStr (x : Option String) (d : String) : String :=
  match x with
  | none => d
  | some s => if s = "" then d else s

/-- JS `x || d` for an optional numeric option field (`0` is falsy). -/
def jsOrNum (x : Option ℤ) (d : ℤ) : ℤ :=
  match x with
  | none => d
  | some n => if n = 0 then d else n

/-- JS `Array.prototype.slice(start, stop)` with its clamping semantics for
out-of-range and negative indices. -/
def jsSlice {α : Type} (l : List α) (start stop : ℤ) : List α :=
  let len : ℤ := l.length
  let s : ℤ := if start < 0 then max (len + start) 0 else min start len
  let e : ℤ := if stop < 0 then max (len + stop) 0 else min stop len
  (l.drop s.toNat).take (e - s).toNat

/-! ## CVSS 3.x base-score calculation (`calculateCVSS3Score`) -/

/-- The metric table built by the parsing loop of `calculateCVSS3Score`:
`vectorString.split('/')`, skip the leading `CVSS:3.1` part, split each part
at `':'` and keep the first two components when both are non-empty.
Later entries overwrite earlier ones (JS object assignment). -/
def parseMetrics (v : String) : List (String × String) :=
  ((splitChar '/' v.data).drop 1).filterMap (fun part =>
    match splitChar ':' part with
    | key :: value :: _ =>
      if key ≠ [] ∧ value ≠ [] then some (String.mk key, String.mk value)
      else none
    | _ => none)

/-- Lookup in the metric table (last write wins, as for a JS object). -/
def getMetric (ms : List (String × String)) (k : String) : Option String :=
  ((ms.filter (fun p => p.1 = k)).getLast?).map (·.2)

/-- `Math.ceil(q * 10) / 10`: round up to one decimal place. -/
def roundUp1 (q : ℚ) : ℚ := (⌈q * 10⌉ : ℚ) / 10

/-- Embedding of `calculateCVSS3Score` (local-repository.ts lines 86–167),
with JS floating-point arithmetic modelled exactly over `ℚ`. -/
def calculateCVSS3Score (vectorString : String) : ℚ :=
  let metrics := parseMetrics vectorString
  let avScore : ℚ :=
    if getMetric metrics "AV" = some "N" then 0.85
    else if getMetric metrics "AV" = some "A" then 0.62
    else if getMetric metrics "AV" = some "L" then 0.55
    else if getMetric metrics "AV" = some "P" then 0.2
    else 0
  let acScore : ℚ :=
    if getMetric metrics "AC" = some "L" then 0.77
    else if getMetric metrics "AC" = some "H" then 0.44
    else 0
  let prScore : ℚ :=
    if getMetric metrics "PR" = some "N" then 0.85
    else if getMetric metrics "PR" = some "L" then
      (if getMetric metrics "S" = some "C" then 0.68 else 0.62)
    else if getMetric metrics "PR" = some "H" then
      (if getMetric metrics "S" = some "C" then 0.50 else 0.27)
    else 0
  let uiScore : ℚ :=
    if getMetric metrics "UI" = some "N" then 0.85
    else if getMetric metrics "UI" = some "R" then 0.62
    else 0
  let cScore : ℚ :=
    if getMetric metrics "C" = some "H" then 0.56
    else if getMetric metrics "C" = some "L" then 0.22
    else 0
  let iScore : ℚ :=
    if getMetric metrics "I" = some "H" then 0.56
    else if getMetric metrics "I" = some "L" then 0.22
    else 0
  let aScore : ℚ :=
    if getMetric metrics "A" = some "H" then 0.56
    else if getMetric metrics "A" = some "L" then 0.22
    else 0
  let exploitability := 8.22 * avScore * acScore * prScore * uiScore
  let impactSubScore := 1 - ((1 - cScore) * (1 - iScore) * (1 - aScore))
  let impact : ℚ :=
    if getMetric metrics "S" = some "C" then
      7.52 * (impactSubScore - 0.029) - 3.25 * (impactSubScore * 0.9731 - 0.02) ^ 13
    else
      6.42 * impactSubScore
  let baseScore : ℚ :=
    if impact ≤ 0 then 0
    else if getMetric metrics "S" = some "U" then min (impact + exploitability) 10
    else min (1.08 * (impact + exploitability)) 10
  roundUp1 baseScore

/-! Spec-side CVSS formula (§4.1 of the specification), written as the
published weight tables followed by the Exploitability / ISS / Impact /
base-score formulas, for comparison with `calculateCVSS3Score`. -/

/-- Spec §4.1 Attack Vector weights: Network 0.85, Adjacent 0.62,
Local 0.55, Physical 0.20. -/
def avWeight (m : Option String) : ℚ :=
  if m = some "N" then 0.85
  else if m = some "A" then 0.62
  else if m = some "L" then 0.55
  else if m = some "P" then 0.2
  else 0

/-- Spec §4.1 Attack Complexity weights: Low 0.77, High 0.44. -/
def acWeight (m : Option String) : ℚ :=
  if m = some "L" then 0.77 else if m = some "H" then 0.44 else 0

/-- Spec §4.1 Privileges Required weights, scope-dependent: None 0.85;
Low 0.68 if Scope=Changed else 0.62; High 0.50 if Scope=Changed else 0.27. -/
def prWeight (s m : Option String) : ℚ :=
  if m = some "N" then 0.85
  else if m = some "L" then (if s = some "C" then 0.68 else 0.62)
  else if m = some "H" then (if s = some "C" then 0.50 else 0.27)
  else 0

/-- Spec §4.1 User Interaction weights: None 0.85, Required 0.62. -/
def uiWeight (m : Option String) : ℚ :=
  if m = some "N" then 0.85 else if m = some "R" then 0.62 else 0

/-- Spec §4.1 C/I/A impact weights: High 0.56, Low 0.22, None 0. -/
def ciaWeight (m : Option String) : ℚ :=
  if m = some "H" then 0.56 else if m = some "L" then 0.22 else 0

/-- Spec §4.1 base-score formula: Exploitability = 8.22·AV·AC·PR·UI,
ISS = 1 − (1−C)(1−I)(1−A), Impact = 6.42·ISS when Scope=Unchanged and
7.52·(ISS−0.029) − 3.25·(ISS·0.9731−0.02)^13 when Scope=Changed, base score
0 when Impact ≤ 0, otherwise min(Impact+Exploitability, 10) for Unchanged
and min(1.08·(Impact+Exploitability), 10) otherwise, rounded up to one
decimal. -/
def cvssSpecScore (v : String) : ℚ :=
  let ms := parseMetrics v
  let exploitability :=
    8.22 * avWeight (getMetric ms "AV") * acWeight (getMetric ms "AC") *
      prWeight (getMetric ms "S") (getMetric ms "PR") * uiWeight (getMetric ms "UI")
  let iss :=
    1 - ((1 - ciaWeight (getMetric ms "C")) * (1 - ciaWeight (getMetric ms "I")) *
      (1 - ciaWeight (getMetric ms "A")))
  let impact : ℚ :=
    if getMetric ms "S" = some "C" then
      7.52 * (iss - 0.029) - 3.25 * (iss * 0.9731 - 0.02) ^ 13
    else
      6.42 * iss
  let baseScore : ℚ :=
    if impact ≤ 0 then 0
    else if getMetric ms "S" = some "U" then min (impact + exploitability) 10
    else min (1.08 * (impact + exploitability)) 10
  roundUp1 baseScore

theorem cvss_code_eq_spec : ∀ v, calculateCVSS3Score v = cvssSpecScore v :=
  fun _ => rfl

/-- Evaluate `roundUp1` from bracketing bounds on `q * 10`. -/
theorem roundUp1_eq (q : ℚ) (n : ℤ) (h1 : (n : ℚ) - 1 < q * 10)
    (h2 : q * 10 ≤ (n : ℚ)) : roundUp1 q = (n : ℚ) / 10 := by
  unfold roundUp1
  rw [Int.ceil_eq_iff.mpr ⟨h1, h2⟩]

/-! ## Data model: OSV raw records and canonical advisories -/

/-- One entry of `ranges[].events[]` in an OSV record. -/
structure OSVEvent where
  introduced : Option String := none
  fixed : Option String := none
  last_affected : Option String := none
  deriving DecidableEq, Repr

/-- One entry of `affected[].ranges[]`. -/
structure OSVRange where
  type : String
  events : List OSVEvent
  deriving DecidableEq, Repr

/-- `affected[].package`. -/
structure OSVPackage where
  ecosystem : String
  name : String
  deriving DecidableEq, Repr

/-- One entry of `affected[]` (fields the normalizer never reads are
omitted). -/
structure OSVAffected where
  package : OSVPackage
  ranges : List OSVRange
  deriving DecidableEq, Repr

/-- One entry of `severity[]`. -/
structure OSVSeverityEntry where
  type : String
  score : String
  deriving DecidableEq, Repr

/-- One entry of `references[]`. -/
structure OSVReference where
  type : String
  url : String
  deriving DecidableEq, Repr

/-- `database_specific` of an OSV record. -/
structure OSVDatabaseSpecific where
  cwe_ids : List String
  severity : String
  github_reviewed : Bool
  github_reviewed_at : Option String
  nvd_published_at : Option String
  deriving DecidableEq, Repr

/-- An OSV advisory record as declared in `local-repository.ts`
(`OSVAdvisory`); fields the normalizer never reads are omitted. -/
structure OSVAdvisory where
  id : String
  modified : String
  published : String
  withdrawn : Option String := none
  aliases : List String
  summary : Option String := none
  details : String
  severity : List OSVSeverityEntry
  affected : List OSVAffected
  references : List OSVReference
  database_specific : OSVDatabaseSpecific
  deriving DecidableEq, Repr

/-- `vulnerabilities[].package` of a canonical advisory. -/
structure VulnPackage where
  ecosystem : String
  name : String
  deriving DecidableEq, Repr

/-- One entry of a canonical advisory's `vulnerabilities[]`. -/
structure Vulnerability where
  package : VulnPackage
  severity : String
  vulnerable_version_range : String
  first_patched_version : Option String
  deriving DecidableEq, Repr

/-- One entry of `identifiers[]`. -/
structure Identifier where
  type : String
  value : String
  deriving DecidableEq, Repr

/-- The `cvss` block of a canonical advisory. -/
structure CvssBlock where
  vector_string : String
  score : ℚ
  deriving DecidableEq, Repr

/-- One entry of `cvss_severities[]`. -/
structure CvssSeverityEntry where
  score : ℚ
  type : String
  vector_string : String
  deriving DecidableEq, Repr

/-- One entry of `cwes[]`. -/
structure CweEntry where
  cwe_id : String
  name : String
  deriving DecidableEq, Repr

/-- A canonical advisory (`Advisory` in `types/data-source.ts`).
`cve_id` and `description` are declared `string | null` there, hence
`Option String`; `epss` (always `undefined`) and `credits` (always `[]`)
are omitted. -/
structure Advisory where
  ghsa_id : String
  cve_id : Option String
  url : String
  html_url : String
  repository_advisory_url : Option String
  summary : String
  description : Option String
  type : String
  severity : String
  source_code_location : Option String
  identifiers : List Identifier
  references : List String
  published_at : String
  updated_at : String
  github_reviewed_at : Option String
  nvd_published_at : Option String
  withdrawn_at : Option String
  vulnerabilities : List Vulnerability
  cvss : Option CvssBlock
  cvss_severities : Option (List CvssSeverityEntry)
  cwes : List CweEntry
  deriving DecidableEq, Repr

/-- JS truthiness used by `events.find(e => e.introduced)`:
an absent or empty-string bound is falsy. -/
def truthyField (x : Option String) : Bool :=
  match x with
  | none => false
  | some s => s ≠ ""

/-- The synthesized vulnerable version range of one `affected` entry
(`osvToAdvisory`, lines 245–259): from the first range's events, the first
event with a truthy `introduced` and the first event with a truthy `fixed`
are located independently. -/
def synthVulnerableRange (events : List OSVEvent) : String :=
  let introduced :=
    match (events.find? (fun e => truthyField e.introduced)).bind (·.introduced) with
    | some s => s
    | none => ""
  let fixed :=
    match (events.find? (fun e => truthyField e.fixed)).bind (·.fixed) with
    | some s => s
    | none => ""
  if events.length > 0 then
    if introduced ≠ "" ∧ fixed ≠ "" then ">= " ++ introduced ++ ", < " ++ fixed
    else if introduced ≠ "" then ">= " ++ introduced
    else if fixed ≠ "" then "< " ++ fixed
    else "*"
  else "*"

/-- `events.find(e => e.fixed)?.fixed || null` (line 261). -/
def synthFirstPatched (events : List OSVEvent) : Option String :=
  (events.find? (fun e => truthyField e.fixed)).bind (·.fixed)

/-- Embedding of `osvToAdvisory` (lines 212–302). -/
def osvToAdvisory (osv : OSVAdvisory) : Advisory :=
  let cveId : String :=
    match osv.aliases.find? (fun al => strStartsWith al "CVE-") with
    | some s => s
    | none => ""
  let cvssVector := osv.severity.find? (fun s => s.type = "CVSS_V3")
  let cvss : Option CvssBlock :=
    match cvssVector with
    | some sv => some { vector_string := sv.score, score := calculateCVSS3Score sv.score }
    | none => none
  let cvss_severities : Option (List CvssSeverityEntry) :=
    match cvssVector with
    | some sv =>
      some [{ score := calculateCVSS3Score sv.score, type := "CVSS_V3",
              vector_string := sv.score }]
    | none => none
  let cwes := osv.database_specific.cwe_ids.map (fun cweId =>
    { cwe_id := cweId, name := cweId : CweEntry })
  let vulnerabilities := osv.affected.map (fun affected =>
    let events := match affected.ranges.head? with
      | some range => range.events
      | none => []
    { package :=
        { ecosystem := jsOrStr (some affected.package.ecosystem) "Unknown",
          name := jsOrStr (some affected.package.name) "unknown" },
      severity := jsOrStr (some osv.database_specific.severity) "unknown",
      vulnerable_version_range := synthVulnerableRange events,
      first_patched_version := synthFirstPatched events : Vulnerability })
  { ghsa_id := osv.id,
    cve_id := some cveId,
    url := "https://github.com/advisories/" ++ osv.id,
    html_url := "https://github.com/advisories/" ++ osv.id,
    repository_advisory_url := none,
    summary :=
      match osv.summary with
      | some s => if s = "" then String.mk ((splitChar '\n' osv.details.data).headD []) else s
      | none => String.mk ((splitChar '\n' osv.details.data).headD []),
    description := some osv.details,
    type := "reviewed",
    severity := lowerStr osv.database_specific.severity,
    source_code_location := none,
    identifiers :=
      { type := "GHSA", value := osv.id } ::
        (if cveId ≠ "" then [{ type := "CVE", value := cveId : Identifier }] else []),
    references := osv.references.map (·.url),
    published_at := osv.published,
    updated_at := osv.modified,
    github_reviewed_at := osv.database_specific.github_reviewed_at,
    nvd_published_at := osv.database_specific.nvd_published_at,
    withdrawn_at := if truthyField osv.withdrawn then osv.withdrawn else none,
    vulnerabilities := vulnerabilities,
    cvss := cvss,
    cvss_severities := cvss_severities,
    cwes := cwes }

/-! ## Dates

`parseDateFilter` builds its boundary strings with the JS `Date` library:
`new Date(str + 'T00:00:00Z')`, `setUTCDate(getUTCDate() + 1)` and
`toISOString()`.  The library is modelled at the proleptic-Gregorian
calendar level: a UTC calendar date, validity, the successor day, fixed
ISO-8601 rendering (`toISOString` emits milliseconds, `YYYY-MM-DDTHH:mm:ss.sssZ`),
and parsing of `YYYY-MM-DDT00:00:00Z` strings (an out-of-range component
makes an Invalid Date, on which `toISOString` throws — embedded as `none`). -/

/-- A UTC calendar date. -/
structure CalDate where
  y : ℕ
  m : ℕ
  d : ℕ
  deriving DecidableEq, Repr

/-- A UTC time of day (whole seconds; the advisory timestamps compared by
the engine carry second precision). -/
structure CalTime where
  h : ℕ
  mi : ℕ
  s : ℕ
  deriving DecidableEq, Repr

/-- Gregorian leap year. -/
def isLeap (y : ℕ) : Bool := (y % 4 = 0 ∧ y % 100 ≠ 0) ∨ y % 400 = 0

/-- Days in a month. -/
def daysInMonth (y m : ℕ) : ℕ :=
  if m = 2 then (if isLeap y then 29 else 28)
  else if m = 4 ∨ m = 6 ∨ m = 9 ∨ m = 11 then 30
  else 31

/-- A valid calendar date within `toISOString`'s 4-digit-year range, with
room for one successor day. -/
def validDate (dt : CalDate) : Prop :=
  1 ≤ dt.y ∧ dt.y ≤ 9998 ∧ 1 ≤ dt.m ∧ dt.m ≤ 12 ∧ 1 ≤ dt.d ∧ dt.d ≤ daysInMonth dt.y dt.m

instance (dt : CalDate) : Decidable (validDate dt) := by
  unfold validDate; infer_instance

/-- A valid time of day. -/
def validTime (t : CalTime) : Prop := t.h < 24 ∧ t.mi < 60 ∧ t.s < 60

instance (t : CalTime) : Decidable (validTime t) := by
  unfold validTime; infer_instance

/-- The successor calendar day (what `setUTCDate(getUTCDate() + 1)` does to
a valid date). -/
def nextDay (dt : CalDate) : CalDate :=
  if dt.d < daysInMonth dt.y dt.m then ⟨dt.y, dt.m, dt.d + 1⟩
  else if dt.m < 12 then ⟨dt.y, dt.m + 1, 1⟩
  else ⟨dt.y + 1, 1, 1⟩

/-- The digit character for `n % 10`. -/
def digitChar (n : ℕ) : Char := Char.ofNat (48 + n % 10)

/-- Two-digit zero-padded rendering. -/
def pad2 (n : ℕ) : List Char := [digitChar (n / 10), digitChar n]

/-- Four-digit zero-padded rendering. -/
def pad4 (n : ℕ) : List Char :=
  [digitChar (n / 1000), digitChar (n / 100), digitChar (n / 10), digitChar n]

/-- `YYYY-MM-DD`. -/
def renderDate (dt : CalDate) : List Char :=
  pad4 dt.y ++ '-' :: (pad2 dt.m ++ '-' :: pad2 dt.d)

/-- `HH:MM:SS`. -/
def renderTime (t : CalTime) : List Char :=
  pad2 t.h ++ ':' :: (pad2 t.mi ++ ':' :: pad2 t.s)

/-- A canonical second-precision ISO-8601 UTC timestamp
`YYYY-MM-DDTHH:MM:SSZ`, the fixed-width format the specification assumes
for the advisory `published_at` / `updated_at` fields. -/
def renderTs (dt : CalDate) (t : CalTime) : String :=
  String.mk (renderDate dt ++ 'T' :: (renderTime t ++ ['Z']))

/-- `toISOString()` of a date at UTC midnight:
`YYYY-MM-DDT00:00:00.000Z`. -/
def toISOMidnight (dt : CalDate) : String :=
  String.mk (renderDate dt ++ 'T' :: ("00:00:00.000Z".data))

/-- Numeric value of a digit character. -/
def digitVal (c : Char) : ℕ := c.toNat - 48

/-- Is `c` an ASCII digit? -/
def isDigitCh (c : Char) : Bool := 48 ≤ c.toNat ∧ c.toNat ≤ 57

/-- Read two digits. -/
def parse2 : List Char → Option (ℕ × List Char)
  | a :: b :: rest =>
    if isDigitCh a ∧ isDigitCh b then some (digitVal a * 10 + digitVal b, rest)
    else none
  | _ => none

/-- Read four digits. -/
def parse4 : List Char → Option (ℕ × List Char)
  | a :: b :: c :: d :: rest =>
    if isDigitCh a ∧ isDigitCh b ∧ isDigitCh c ∧ isDigitCh d then
      some (digitVal a * 1000 + digitVal b * 100 + digitVal c * 10 + digitVal d, rest)
    else none
  | _ => none

/-- `new Date(s)` for strings of the shape `YYYY-MM-DDT00:00:00Z`: parses
the date and validates the component ranges; anything else is an Invalid
Date (`none`). -/
def jsDateParseMidnight (s : String) : Option CalDate :=
  match parse4 s.data with
  | none => none
  | some (y, r1) =>
    match r1 with
    | [] => none
    | c1 :: r2 =>
      if c1 = '-' then
        match parse2 r2 with
        | none => none
        | some (mo, r3) =>
          match r3 with
          | [] => none
          | c2 :: r4 =>
            if c2 = '-' then
              match parse2 r4 with
              | none => none
              | some (dy, r5) =>
                if r5 = "T00:00:00Z".data ∧
                    1 ≤ mo ∧ mo ≤ 12 ∧ 1 ≤ dy ∧ dy ≤ daysInMonth y mo then
                  some ⟨y, mo, dy⟩
                else none
            else none
      else none

/-- JS `s.includes('..')`: some adjacent pair of dots exists. -/
def hasDotDot : List Char → Bool
  | [] => false
  | [_] => false
  | c1 :: c2 :: cs => (c1 = '.' && c2 = '.') || hasDotDot (c2 :: cs)

/-- JS `s.split('..')` (left-to-right, non-overlapping). -/
def splitDotDot : List Char → List (List Char)
  | [] => [[]]
  | [c] => [[c]]
  | c1 :: c2 :: cs =>
    if c1 = '.' ∧ c2 = '.' then [] :: splitDotDot cs
    else
      match splitDotDot (c2 :: cs) with
      | [] => [[c1]]
      | r :: rs => (c1 :: r) :: rs

/-- Embedding of `parseDateFilter` (lines 308–321).  Returns the pair
`(start, end)` of boundary strings; `none` embeds the `RangeError` that
`toISOString()` raises on an Invalid Date. -/
def parseDateFilter (dateStr : String) : Option (String × String) :=
  if hasDotDot dateStr.data then
    match splitDotDot dateStr.data with
    | start :: endPart :: _ =>
      match jsDateParseMidnight (String.mk (endPart ++ "T00:00:00Z".data)) with
      | some ed => some (String.mk (start ++ "T00:00:00Z".data), toISOMidnight (nextDay ed))
      | none => none
    | _ => none
  else
    match jsDateParseMidnight (String.mk (dateStr.data ++ "T00:00:00Z".data)) with
    | some d => some (toISOMidnight d, toISOMidnight (nextDay d))
    | none => none

/-- The field a date filter compares against. -/
inductive DateField where
  | published_at
  | updated_at
  deriving DecidableEq, Repr

/-- Field access for `a[field]`. -/
def fieldGet (fld : DateField) (a : Advisory) : String :=
  match fld with
  | .published_at => a.published_at
  | .updated_at => a.updated_at

/-- `date >= start && date < end` of `filterByDateRange` (lines 328–331). -/
def matchesDate (ts start stop : String) : Bool :=
  strGeB ts start && strLtB ts stop

/-- Embedding of `filterByDateRange` (lines 326–332); `none` when
`parseDateFilter` raises. -/
def filterByDateRange (advisories : List Advisory) (fld : DateField)
    (dateStr : String) : Option (List Advisory) :=
  match parseDateFilter dateStr with
  | some (start, stop) =>
    some (advisories.filter (fun a => matchesDate (fieldGet fld a) start stop))
  | none => none

/-! ## Query engine -/

/-- `AdvisoryListOptions` (`types/data-source.ts`); fields the engine never
reads (`modified`, `epss_percentage`, `epss_percentile`, `before`, `after`)
are omitted.  Numeric fields are embedded as `ℤ`. -/
structure AdvisoryListOptions where
  ghsa_id : Option String := none
  cve_id : Option String := none
  ecosystem : Option String := none
  severity : Option String := none
  cwes : Option (List String) := none
  is_withdrawn : Option Bool := none
  affects : Option String := none
  published : Option String := none
  updated : Option String := none
  direction : Option String := none
  per_page : Option ℤ := none
  page : Option ℤ := none
  sort : Option String := none
  deriving DecidableEq, Repr

/-- Filter step `if (options.ghsa_id) results = results.filter(...)`
(lines 343–345). -/
def filterGhsa (o : AdvisoryListOptions) (l : List Advisory) : List Advisory :=
  if truthyOpt o.ghsa_id then
    l.filter (fun a => decide (some a.ghsa_id = o.ghsa_id)) else l

/-- Filter step `if (options.cve_id) ...` (lines 347–349). -/
def filterCve (o : AdvisoryListOptions) (l : List Advisory) : List Advisory :=
  if truthyOpt o.cve_id then
    l.filter (fun a => decide (a.cve_id = o.cve_id)) else l

/-- Filter step `if (options.ecosystem) ...` (lines 351–355). -/
def filterEco (o : AdvisoryListOptions) (l : List Advisory) : List Advisory :=
  if truthyOpt o.ecosystem then
    l.filter (fun a =>
      a.vulnerabilities.any (fun v => decide (some v.package.ecosystem = o.ecosystem)))
  else l

/-- Filter step `if (options.severity) ...` (lines 357–361). -/
def filterSev (o : AdvisoryListOptions) (l : List Advisory) : List Advisory :=
  if truthyOpt o.severity then
    l.filter (fun a => decide (some (lowerStr a.severity) = o.severity.map lowerStr))
  else l

/-- Filter step `if (options.cwes && options.cwes.length > 0) ...`
(lines 363–367). -/
def filterCwes (o : AdvisoryListOptions) (l : List Advisory) : List Advisory :=
  match o.cwes with
  | some cl => if cl.length > 0 then
      l.filter (fun a => a.cwes.any (fun cwe => cl.contains cwe.cwe_id)) else l
  | none => l

/-- Filter step `if (options.is_withdrawn !== undefined) ...`
(lines 369–373). -/
def filterWithdrawn (o : AdvisoryListOptions) (l : List Advisory) : List Advisory :=
  match o.is_withdrawn with
  | some b => l.filter (fun a =>
      if b then decide (a.withdrawn_at ≠ none) else decide (a.withdrawn_at = none))
  | none => l

/-- Filter step `if (options.affects) ...` (lines 375–379). -/
def filterAffects (o : AdvisoryListOptions) (l : List Advisory) : List Advisory :=
  if truthyOpt o.affects then
    l.filter (fun a =>
      a.vulnerabilities.any (fun v => strIncludes v.package.name (jsOrStr o.affects "")))
  else l

/-- Filter step `if (options.published) ...` (lines 381–383). -/
def filterPublished (o : AdvisoryListOptions) (l : List Advisory) :
    Option (List Advisory) :=
  if truthyOpt o.published then
    filterByDateRange l .published_at (jsOrStr o.published "") else some l

/-- Filter step `if (options.updated) ...` (lines 385–387). -/
def filterUpdated (o : AdvisoryListOptions) (l : List Advisory) :
    Option (List Advisory) :=
  if truthyOpt o.updated then
    filterByDateRange l .updated_at (jsOrStr o.updated "") else some l

/-- The filter cascade of `listAdvisories` (lines 343–387), in source
order; `none` embeds a `RangeError` escaping from a date filter on a
malformed filter string. -/
def applyFilters (store : List Advisory) (o : AdvisoryListOptions) :
    Option (List Advisory) :=
  match filterPublished o
      (filterAffects o (filterWithdrawn o (filterCwes o
        (filterSev o (filterEco o (filterCve o (filterGhsa o store))))))) with
  | none => none
  | some r8 => filterUpdated o r8

/-- Stable insertion of `x` after every already-placed element `y` with
`le y x` (the placement a stable comparison sort gives each element). -/
def insertStable {α : Type} (le : α → α → Bool) (x : α) : List α → List α
  | [] => [x]
  | y :: ys => if le y x then y :: insertStable le x ys else x :: y :: ys

/-- Stable sort by the boolean preorder `le`, processing elements left to
right; embeds JS `Array.prototype.sort` with a consistent comparator
(`le a b` standing for `comparator(a, b) <= 0`). -/
def stableSortBy {α : Type} (le : α → α → Bool) (l : List α) : List α :=
  l.foldl (fun acc x => insertStable le x acc) []

/-- The sort key of `listAdvisories` (lines 390–393):
`options.sort || 'published'`, then `published_at` for `'published'` and
`updated_at` otherwise. -/
def sortKey (o : AdvisoryListOptions) (a : Advisory) : String :=
  if jsOrStr o.sort "published" = "published" then a.published_at else a.updated_at

/-- The comparator of `listAdvisories` (lines 391–397) as a boolean
preorder: `asc` sorts by `aDate.localeCompare(bDate)`, anything else by
`bDate.localeCompare(aDate)`. -/
def sortLe (o : AdvisoryListOptions) (a b : Advisory) : Bool :=
  if o.direction = some "asc" then strLeB (sortKey o a) (sortKey o b)
  else strLeB (sortKey o b) (sortKey o a)

/-- The sorting step of `listAdvisories`. -/
def sortStep (o : AdvisoryListOptions) (l : List Advisory) : List Advisory :=
  stableSortBy (sortLe o) l

/-- The pagination step of `listAdvisories` (lines 399–403):
`perPage = options.per_page || 30`, `page = options.page || 1`,
`results.slice((page-1)*perPage, (page-1)*perPage + perPage)`. -/
def paginate (o : AdvisoryListOptions) (l : List Advisory) : List Advisory :=
  let perPage := jsOrNum o.per_page 30
  let page := jsOrNum o.page 1
  let startIndex := (page - 1) * perPage
  jsSlice l startIndex (startIndex + perPage)

/-- `listAdvisories` (lines 337–406) after the store has been built, as a
pure function of the store's value sequence. -/
def listAdvisoriesPure (store : List Advisory) (o : AdvisoryListOptions) :
    Option (List Advisory) :=
  (applyFilters store o).map (fun r => paginate o (sortStep o r))

/-- The canonical store: insertion-ordered key/value pairs (`Map`). -/
abbrev Cache : Type := List (String × Advisory)

/-- `Map.prototype.set`: overwrite in place if the key is present,
otherwise append. -/
def mapSet (c : Cache) (k : String) (v : Advisory) : Cache :=
  if (List.any c (fun p => p.1 = k)) then
    List.map (fun p => if p.1 = k then (k, v) else p) c
  else c ++ [(k, v)]

/-- `Map.prototype.get` (`none` for an absent key). -/
def mapGet (c : Cache) (k : String) : Option Advisory :=
  (List.find? (fun p => p.1 = k) c).map (·.2)

/-- `Array.from(cache.values())` in insertion order. -/
def cacheValues (c : Cache) : List Advisory := List.map (·.2) c

/-- `getAdvisory` (lines 411–420) after the store has been built: absent
keys give `null`, never an exception. -/
def getAdvisoryPure (c : Cache) (ghsaId : String) : Option Advisory :=
  mapGet c ghsaId

/-- The text predicate of `searchAdvisories` (lines 429–434):
case-insensitive substring match against summary, description, GHSA id and
CVE id (optional chaining makes a `null` field a non-match). -/
def searchMatch (queryLower : String) (a : Advisory) : Bool :=
  strIncludes (lowerStr a.summary) queryLower ||
  (match a.description with
    | some d2 => strIncludes (lowerStr d2) queryLower
    | none => false) ||
  strIncludes (lowerStr a.ghsa_id) queryLower ||
  (match a.cve_id with
    | some cv => strIncludes (lowerStr cv) queryLower
    | none => false)

/-- `filterResults` (lines 440–457): ecosystem and severity filters as in
`listAdvisories`, then `results.slice(0, perPage)`. -/
def filterResults (results : List Advisory) (o : AdvisoryListOptions) :
    List Advisory :=
  let r1 := if truthyOpt o.ecosystem then
      results.filter (fun a =>
        a.vulnerabilities.any (fun v => decide (some v.package.ecosystem = o.ecosystem)))
    else results
  let r2 := if truthyOpt o.severity then
      r1.filter (fun a => decide (some (lowerStr a.severity) = o.severity.map lowerStr))
    else r1
  jsSlice r2 0 (jsOrNum o.per_page 30)

/-- `searchAdvisories` (lines 425–438) after the store has been built. -/
def searchAdvisoriesPure (store : List Advisory) (query : String)
    (o : AdvisoryListOptions) : List Advisory :=
  filterResults (store.filter (searchMatch (lowerStr query))) o

/-! ## Index builder and data-source state -/

/-- A directory listing of the source tree, as first-order syntax: a
sequence of entries, where a directory carries a `readable` flag
(`false` embeds a `readdir` failure) and a file carries the outcome of
`JSON.parse` + normalization input (`Except.error` embeds a parse
failure). -/
inductive FsTree where
  | nil : FsTree
  | file (name : String) (content : Except String OSVAdvisory) (rest : FsTree) : FsTree
  | dir (name : String) (readable : Bool) (entries : FsTree) (rest : FsTree) : FsTree
  deriving Repr

/-- Embedding of `indexDirectory` (lines 184–207): walk the listing in
order; recurse into readable directories, skip unreadable ones (the `catch`
around `readdir`); for a `.json` file, insert the normalized advisory on
parse success and skip the file on failure (the inner `catch`). -/
def indexTree : FsTree → Cache → Cache
  | .nil, c => c
  | .file name content rest, c =>
    indexTree rest
      (if strEndsWith name ".json" then
        match content with
        | .ok osv => mapSet c (osvToAdvisory osv).ghsa_id (osvToAdvisory osv)
        | .error _ => c
      else c)
  | .dir _ readable entries rest, c =>
    indexTree rest (if readable then indexTree entries c else c)

/-- The mutable state of a `LocalRepositoryDataSource`. -/
structure SourceState where
  cache : Cache
  indexBuilt : Bool

/-- Embedding of `buildIndex` (lines 172–179): a no-op once `indexBuilt`
is set, otherwise one walk of the tree followed by `indexBuilt = true`. -/
def buildIndex (tree : FsTree) (s : SourceState) : SourceState :=
  if s.indexBuilt then s
  else { cache := indexTree tree s.cache, indexBuilt := true }

/-- Stateful `listAdvisories`: `await this.buildIndex()` then the pure
query; returns the state after the call together with the result. -/
def listAdvisoriesCall (tree : FsTree) (s : SourceState)
    (o : AdvisoryListOptions) : SourceState × Option (List Advisory) :=
  let s2 := buildIndex tree s
  (s2, listAdvisoriesPure (cacheValues s2.cache) o)

/-- Stateful `getAdvisory`. -/
def getAdvisoryCall (tree : FsTree) (s : SourceState) (ghsaId : String) :
    SourceState × Option Advisory :=
  let s2 := buildIndex tree s
  (s2, getAdvisoryPure s2.cache ghsaId)

/-- Stateful `searchAdvisories`. -/
def searchAdvisoriesCall (tree : FsTree) (s : SourceState) (query : String)
    (o : AdvisoryListOptions) : SourceState × List Advisory :=
  let s2 := buildIndex tree s
  (s2, searchAdvisoriesPure (cacheValues s2.cache) query o)

/-! ## Claims -/

/-- C1: for every CVSS v3.x vector string, the computed base score equals
the §4.1 formula (weight tables, Exploitability, ISS, scope-dependent
Impact, clamped base score) rounded up to one decimal place; in particular
`CVSS:3.1/AV:N/AC:L/PR:N/UI:N/S:U/C:H/I:H/A:H` yields 9.8 and
`CVSS:3.1/AV:N/AC:L/PR:N/UI:N/S:C/C:H/I:H/A:H` yields 10.0. -/
theorem C1_cvss_base_score :
    (∀ v, calculateCVSS3Score v = cvssSpecScore v) ∧
    calculateCVSS3Score "CVSS:3.1/AV:N/AC:L/PR:N/UI:N/S:U/C:H/I:H/A:H" = 9.8 ∧
    calculateCVSS3Score "CVSS:3.1/AV:N/AC:L/PR:N/UI:N/S:C/C:H/I:H/A:H" = 10.0 := by
  refine ⟨cvss_code_eq_spec, ?_, ?_⟩
  · have hAV : getMetric (parseMetrics "CVSS:3.1/AV:N/AC:L/PR:N/UI:N/S:U/C:H/I:H/A:H") "AV"
        = some "N" := by decide
    have hAC : getMetric (parseMetrics "CVSS:3.1/AV:N/AC:L/PR:N/UI:N/S:U/C:H/I:H/A:H") "AC"
        = some "L" := by decide
    have hPR : getMetric (parseMetrics "CVSS:3.1/AV:N/AC:L/PR:N/UI:N/S:U/C:H/I:H/A:H") "PR"
        = some "N" := by decide
    have hUI : getMetric (parseMetrics "CVSS:3.1/AV:N/AC:L/PR:N/UI:N/S:U/C:H/I:H/A:H") "UI"
        = some "N" := by decide
    have hC : getMetric (parseMetrics "CVSS:3.1/AV:N/AC:L/PR:N/UI:N/S:U/C:H/I:H/A:H") "C"
        = some "H" := by decide
    have hI : getMetric (parseMetrics "CVSS:3.1/AV:N/AC:L/PR:N/UI:N/S:U/C:H/I:H/A:H") "I"
        = some "H" := by decide
    have hA : getMetric (parseMetrics "CVSS:3.1/AV:N/AC:L/PR:N/UI:N/S:U/C:H/I:H/A:H") "A"
        = some "H" := by decide
    have hS : getMetric (parseMetrics "CVSS:3.1/AV:N/AC:L/PR:N/UI:N/S:U/C:H/I:H/A:H") "S"
        = some "U" := by decide
    have hUC : ((("U" : String) = "C")) = False :=
      eq_false (by decide)
    simp only [calculateCVSS3Score]
    rw [hAV, hAC, hPR, hUI, hC, hI, hA, hS]
    norm_num [min_def, hUC]
    rw [roundUp1_eq _ 98 (by norm_num) (by norm_num)]
    norm_num
  · have hAV : getMetric (parseMetrics "CVSS:3.1/AV:N/AC:L/PR:N/UI:N/S:C/C:H/I:H/A:H") "AV"
        = some "N" := by decide
    have hAC : getMetric (parseMetrics "CVSS:3.1/AV:N/AC:L/PR:N/UI:N/S:C/C:H/I:H/A:H") "AC"
        = some "L" := by decide
    have hPR : getMetric (parseMetrics "CVSS:3.1/AV:N/AC:L/PR:N/UI:N/S:C/C:H/I:H/A:H") "PR"
        = some "N" := by decide
    have hUI : getMetric (parseMetrics "CVSS:3.1/AV:N/AC:L/PR:N/UI:N/S:C/C:H/I:H/A:H") "UI"
        = some "N" := by decide
    have hC : getMetric (parseMetrics "CVSS:3.1/AV:N/AC:L/PR:N/UI:N/S:C/C:H/I:H/A:H") "C"
        = some "H" := by decide
    have hI : getMetric (parseMetrics "CVSS:3.1/AV:N/AC:L/PR:N/UI:N/S:C/C:H/I:H/A:H") "I"
        = some "H" := by decide
    have hA : getMetric (parseMetrics "CVSS:3.1/AV:N/AC:L/PR:N/UI:N/S:C/C:H/I:H/A:H") "A"
        = some "H" := by decide
    have hS : getMetric (parseMetrics "CVSS:3.1/AV:N/AC:L/PR:N/UI:N/S:C/C:H/I:H/A:H") "S"
        = some "C" := by decide
    have hCU : ((("C" : String) = "U")) = False :=
      eq_false (by decide)
    simp only [calculateCVSS3Score]
    rw [hAV, hAC, hPR, hUI, hC, hI, hA, hS]
    norm_num [min_def, hCU]
    rw [roundUp1_eq _ 100 (by norm_num) (by norm_num)]
    norm_num

/-- Version-range synthesis as worded by spec §4.1: locate (independently)
an event carrying an introduced bound and an event carrying a fixed bound;
emit the range shape corresponding to which bounds exist. -/
def specRangeSynthesis (events : List OSVEvent) : String :=
  match (events.find? (fun e => truthyField e.introduced)).bind (·.introduced),
        (events.find? (fun e => truthyField e.fixed)).bind (·.fixed) with
  | some i, some f => ">= " ++ i ++ ", < " ++ f
  | some i, none => ">= " ++ i
  | none, some f => "< " ++ f
  | none, none => "*"

theorem truthyField_eq_true {x : Option String} (h : truthyField x = true) :
    ∃ s, x = some s ∧ s ≠ "" := by
  cases x with
  | none => simp [truthyField] at h
  | some s =>
    refine ⟨s, rfl, ?_⟩
    simpa [truthyField] using h

theorem synth_eq_spec (events : List OSVEvent) :
    synthVulnerableRange events = specRangeSynthesis events := by
  unfold synthVulnerableRange specRangeSynthesis
  rcases hI : events.find? (fun e => truthyField e.introduced) with _ | ei <;>
    rcases hF : events.find? (fun e => truthyField e.fixed) with _ | ef
  · cases events with
    | nil => simp
    | cons e es => simp [hI, hF]
  · have hPf : truthyField ef.fixed = true := by
      have := List.find?_some hF
      simpa using this
    obtain ⟨f, hf, hfne⟩ := truthyField_eq_true hPf
    cases events with
    | nil => simp at hF
    | cons e es => simp [hI, hF, hf, hfne]
  · have hPi : truthyField ei.introduced = true := by
      have := List.find?_some hI
      simpa using this
    obtain ⟨i, hi, hine⟩ := truthyField_eq_true hPi
    cases events with
    | nil => simp at hI
    | cons e es => simp [hI, hF, hi, hine]
  · have hPi : truthyField ei.introduced = true := by
      have := List.find?_some hI
      simpa using this
    have hPf : truthyField ef.fixed = true := by
      have := List.find?_some hF
      simpa using this
    obtain ⟨i, hi, hine⟩ := truthyField_eq_true hPi
    obtain ⟨f, hf, hfne⟩ := truthyField_eq_true hPf
    cases events with
    | nil => simp at hI
    | cons e es => simp [hI, hF, hi, hf, hine, hfne]

/-- C5: each derived vulnerability entry's version range is synthesized
from the first range's events by the spec's independent introduced/fixed
search, and `first_patched_version` is the fixed value of the first event
carrying one (or null); including the spec's three concrete examples. -/
theorem C5_range_synthesis :
    (∀ osv : OSVAdvisory, (osvToAdvisory osv).vulnerabilities =
      osv.affected.map (fun affected =>
        let events := match affected.ranges.head? with
          | some range => range.events
          | none => []
        { package := { ecosystem := jsOrStr (some affected.package.ecosystem) "Unknown",
                       name := jsOrStr (some affected.package.name) "unknown" },
          severity := jsOrStr (some osv.database_specific.severity) "unknown",
          vulnerable_version_range := specRangeSynthesis events,
          first_patched_version :=
            (events.find? (fun e => truthyField e.fixed)).bind (·.fixed) })) ∧
    synthVulnerableRange [{ introduced := some "1.0.0" }, { fixed := some "2.0.0" }] =
      ">= 1.0.0, < 2.0.0" ∧
    synthVulnerableRange [{ introduced := some "1.0.0" }] = ">= 1.0.0" ∧
    synthVulnerableRange ([] : List OSVEvent) = "*" ∧
    synthFirstPatched [{ introduced := some "1.0.0" }] = none := by
  refine ⟨?_, by decide, by decide, by decide, by decide⟩
  intro osv
  simp only [osvToAdvisory, synthFirstPatched]
  refine List.map_congr_left (fun affected _ => ?_)
  simp only [synth_eq_spec]

/-- Membership in a conditional filter implies membership in the input. -/
theorem mem_if_filter {α : Type} {a : α} {l : List α} {p : α → Bool}
    {c : Prop} [Decidable c] (h : a ∈ (if c then l.filter p else l)) : a ∈ l := by
  split at h
  · exact (List.mem_filter.mp h).1
  · exact h

theorem mem_of_filterGhsa {a : Advisory} {o : AdvisoryListOptions}
    {l : List Advisory} (h : a ∈ filterGhsa o l) : a ∈ l := by
  unfold filterGhsa at h
  exact mem_if_filter h

theorem mem_of_filterCve {a : Advisory} {o : AdvisoryListOptions}
    {l : List Advisory} (h : a ∈ filterCve o l) : a ∈ l := by
  unfold filterCve at h
  exact mem_if_filter h

theorem mem_of_filterEco {a : Advisory} {o : AdvisoryListOptions}
    {l : List Advisory} (h : a ∈ filterEco o l) : a ∈ l := by
  unfold filterEco at h
  exact mem_if_filter h

theorem mem_of_filterSev {a : Advisory} {o : AdvisoryListOptions}
    {l : List Advisory} (h : a ∈ filterSev o l) : a ∈ l := by
  unfold filterSev at h
  exact mem_if_filter h

theorem mem_of_filterCwes {a : Advisory} {o : AdvisoryListOptions}
    {l : List Advisory} (h : a ∈ filterCwes o l) : a ∈ l := by
  unfold filterCwes at h
  rcases hc : o.cwes with _ | cl
  · rwa [hc] at h
  · rw [hc] at h
    exact mem_if_filter h

theorem mem_of_filterWithdrawn {a : Advisory} {o : AdvisoryListOptions}
    {l : List Advisory} (h : a ∈ filterWithdrawn o l) : a ∈ l := by
  unfold filterWithdrawn at h
  rcases hb : o.is_withdrawn with _ | b
  · rwa [hb] at h
  · rw [hb] at h
    exact (List.mem_filter.mp h).1

theorem mem_of_filterAffects {a : Advisory} {o : AdvisoryListOptions}
    {l : List Advisory} (h : a ∈ filterAffects o l) : a ∈ l := by
  unfold filterAffects at h
  exact mem_if_filter h

theorem mem_of_filterByDateRange {a : Advisory} {l r : List Advisory}
    {fld : DateField} {ds : String}
    (h : filterByDateRange l fld ds = some r) (hm : a ∈ r) : a ∈ l := by
  unfold filterByDateRange at h
  rcases hp : parseDateFilter ds with _ | se
  · rw [hp] at h
    simp at h
  · rw [hp] at h
    rcases se with ⟨s1, s2⟩
    simp only [Option.some.injEq] at h
    subst h
    exact (List.mem_filter.mp hm).1

theorem mem_of_filterPublished {a : Advisory} {o : AdvisoryListOptions}
    {l r : List Advisory} (h : filterPublished o l = some r) (hm : a ∈ r) :
    a ∈ l := by
  unfold filterPublished at h
  split at h
  · exact mem_of_filterByDateRange h hm
  · cases h
    exact hm

theorem mem_of_filterUpdated {a : Advisory} {o : AdvisoryListOptions}
    {l r : List Advisory} (h : filterUpdated o l = some r) (hm : a ∈ r) :
    a ∈ l := by
  unfold filterUpdated at h
  split at h
  · exact mem_of_filterByDateRange h hm
  · cases h
    exact hm

/-- Membership in an `applyFilters` result implies membership in the
affects-stage input chain. -/
theorem mem_of_applyFilters {a : Advisory} {store : List Advisory}
    {o : AdvisoryListOptions} {r : List Advisory}
    (h : applyFilters store o = some r) (hm : a ∈ r) :
    a ∈ filterAffects o (filterWithdrawn o (filterCwes o
      (filterSev o (filterEco o (filterCve o (filterGhsa o store)))))) := by
  unfold applyFilters at h
  rcases h8 : filterPublished o
      (filterAffects o (filterWithdrawn o (filterCwes o
        (filterSev o (filterEco o (filterCve o (filterGhsa o store))))))) with _ | r8
  · rw [h8] at h
    simp at h
  · rw [h8] at h
    exact mem_of_filterPublished h8 (mem_of_filterUpdated h hm)

/-- An element of a truthy cve filter's output has the requested
`cve_id`. -/
theorem filterCve_mem_cve {a : Advisory} {o : AdvisoryListOptions}
    {l : List Advisory} (htr : truthyOpt o.cve_id = true)
    (h : a ∈ filterCve o l) : a.cve_id = o.cve_id := by
  unfold filterCve at h
  rw [if_pos htr] at h
  simpa using (List.mem_filter.mp h).2

/-- C9: `get` on an absent id yields the absent value (never an
exception), a present id yields that advisory, and `list` cannot fail for
"no matches" — absent data is an ordinary empty/absent result (the only
failure the engine can raise at all comes from a malformed date filter,
not from emptiness; `search` is total by construction). -/
theorem C9_not_found_semantics :
    (∀ (c : Cache) (ghsaId : String),
      (∀ p ∈ c, p.1 ≠ ghsaId) → getAdvisoryPure c ghsaId = none) ∧
    (∀ (c : Cache) (ghsaId : String) (a : Advisory),
      (ghsaId, a) ∈ c → (∀ p ∈ c, p.1 = ghsaId → p.2 = a) →
      getAdvisoryPure c ghsaId = some a) ∧
    (∀ (store : List Advisory) (o : AdvisoryListOptions),
      o.published = none → o.updated = none →
      listAdvisoriesPure store o ≠ none) ∧
    getAdvisoryPure [] "GHSA-0000-0000-0000" = none := by
  refine ⟨?_, ?_, ?_, by decide⟩
  · intro c ghsaId h
    unfold getAdvisoryPure mapGet
    rw [List.find?_eq_none.mpr]
    · rfl
    · intro p hp
      simpa using h p hp
  · intro c ghsaId a hmem huniq
    unfold getAdvisoryPure mapGet
    rcases hf : List.find? (fun p => p.1 = ghsaId) c with _ | q
    · exfalso
      have := List.find?_eq_none.mp hf (ghsaId, a) hmem
      simp at this
    · have hq1 : q.1 = ghsaId := by
        have := List.find?_some hf
        simpa using this
      have hq2 : q.2 = a := huniq q (List.mem_of_find?_eq_some hf) hq1
      rw [hf]
      simp [hq2]
  · intro store o hp hu
    unfold listAdvisoriesPure applyFilters filterPublished filterUpdated
    simp [hp, hu, truthyOpt]

/-- C10: a raw record with no `CVE-` alias normalizes to the empty-string
`cve_id` (never null), a single GHSA identifier, and can never be selected
by an exact `cve_id` filter (the filter is only applied for a truthy,
i.e. non-empty, requested id). -/
theorem C10_cve_empty_string :
    ∀ osv : OSVAdvisory,
      (∀ al ∈ osv.aliases, strStartsWith al "CVE-" = false) →
      (osvToAdvisory osv).cve_id = some "" ∧
      (osvToAdvisory osv).identifiers = [{ type := "GHSA", value := osv.id }] ∧
      (∀ (store : List Advisory) (o : AdvisoryListOptions) (r : List Advisory),
        truthyOpt o.cve_id = true → applyFilters store o = some r →
        osvToAdvisory osv ∉ r) := by
  intro osv hno
  have hfind : osv.aliases.find? (fun al => strStartsWith al "CVE-") = none := by
    rw [List.find?_eq_none]
    intro al hal
    simp [hno al hal]
  have hcve : (osvToAdvisory osv).cve_id = some "" := by
    simp only [osvToAdvisory, hfind]
  refine ⟨hcve, ?_, ?_⟩
  · simp [osvToAdvisory, hfind]
  · intro store o r htr happ hmem
    have hsub : osvToAdvisory osv ∈
        filterCve o (filterGhsa o store) := by
      have h1 := mem_of_applyFilters happ hmem
      have h2 := mem_of_filterAffects h1
      have h3 := mem_of_filterWithdrawn h2
      have h4 := mem_of_filterCwes h3
      have h5 := mem_of_filterSev h4
      exact mem_of_filterEco h5
    have := filterCve_mem_cve htr hsub
    rw [← this, hcve] at htr
    simp [truthyOpt] at htr

/-- A minimal canonical advisory for concrete instances. -/
def mkAdv (idStr pub upd : String) : Advisory :=
  { ghsa_id := idStr, cve_id := some "", url := "", html_url := "",
    repository_advisory_url := none, summary := "s", description := some "d",
    type := "reviewed", severity := "high", source_code_location := none,
    identifiers := [], references := [], published_at := pub,
    updated_at := upd, github_reviewed_at := none, nvd_published_at := none,
    withdrawn_at := none, vulnerabilities := [], cvss := none,
    cvss_severities := none, cwes := [] }

/-- A minimal raw record with no CVE alias. -/
def sampleOsvNoCve : OSVAdvisory :=
  { id := "GHSA-0001", modified := "2026-01-02T00:00:00Z",
    published := "2026-01-01T00:00:00Z", aliases := ["OTHER-2026-1"],
    details := "detail text", severity := [], affected := [], references := [],
    database_specific :=
      { cwe_ids := [], severity := "HIGH", github_reviewed := true,
        github_reviewed_at := none, nvd_published_at := none } }

theorem C9_not_found_semantics_witness :
    getAdvisoryPure [("GHSA-aaaa", mkAdv "GHSA-aaaa" "p" "u")]
      "GHSA-0000-0000-0000" = none ∧
    getAdvisoryPure [("GHSA-aaaa", mkAdv "GHSA-aaaa" "p" "u")]
      "GHSA-aaaa" = some (mkAdv "GHSA-aaaa" "p" "u") ∧
    listAdvisoriesPure [] ({} : AdvisoryListOptions) ≠ none :=
  ⟨C9_not_found_semantics.1 _ _ (by decide),
   C9_not_found_semantics.2.1 _ _ _ (by decide) (by decide),
   C9_not_found_semantics.2.2.1 [] ({} : AdvisoryListOptions) rfl rfl⟩

theorem C10_cve_empty_string_witness :
    (osvToAdvisory sampleOsvNoCve).cve_id = some "" ∧
    (osvToAdvisory sampleOsvNoCve).identifiers =
      [{ type := "GHSA", value := "GHSA-0001" }] :=
  ⟨(C10_cve_empty_string sampleOsvNoCve (by decide)).1,
   (C10_cve_empty_string sampleOsvNoCve (by decide)).2.1⟩

/-- The normalized advisories of the `.json` files that parse successfully,
inside readable directories, in traversal order. -/
def goodFiles : FsTree → List OSVAdvisory
  | .nil => []
  | .file name content rest =>
    (if strEndsWith name ".json" then
      match content with
      | .ok osv => [osv]
      | .error _ => []
    else []) ++ goodFiles rest
  | .dir _ readable entries rest =>
    (if readable then goodFiles entries else []) ++ goodFiles rest

/-- Insert a batch of normalized advisories into the store. -/
def insertAdvisories (c : Cache) (osvs : List OSVAdvisory) : Cache :=
  osvs.foldl (fun c2 osv => mapSet c2 (osvToAdvisory osv).ghsa_id (osvToAdvisory osv)) c

theorem indexTree_eq_goodFiles (t : FsTree) :
    ∀ c : Cache, indexTree t c = insertAdvisories c (goodFiles t) := by
  induction t with
  | nil => intro c; rfl
  | file name content rest ih =>
    intro c
    simp only [indexTree, goodFiles, insertAdvisories, List.foldl_append]
    rw [ih]
    rcases content with msg | osv
    · split
      · rfl
      · rfl
    · split
      · rfl
      · rfl
  | dir name readable entries rest ihe ihr =>
    intro c
    cases readable <;>
      simp [indexTree, goodFiles, insertAdvisories, List.foldl_append, ihr, ihe]

/-- A well-formed raw record with a two-digit id. -/
def mkOsv (k : ℕ) : OSVAdvisory :=
  { id := String.mk (pad2 k), modified := "m", published := "p",
    aliases := [], details := "d", severity := [], affected := [],
    references := [],
    database_specific :=
      { cwe_ids := [], severity := "HIGH", github_reviewed := true,
        github_reviewed_at := none, nvd_published_at := none } }

/-- A chain of `n` well-formed `.json` files with distinct ids. -/
def goodChain : ℕ → FsTree
  | 0 => .nil
  | k + 1 => .file (String.mk (pad2 k) ++ ".json") (.ok (mkOsv k)) (goodChain k)

/-- One malformed JSON file followed by 99 well-formed ones. -/
def demoTree : FsTree := .file "bad.json" (.error "malformed JSON") (goodChain 99)

set_option maxRecDepth 100000 in
/-- C7: a JSON-parse failure skips only that file, a directory-read failure
skips only that subtree, and the walk always continues: the built store is
exactly the fold of the successfully parsed `.json` files over the initial
store; in particular one malformed file among 99 well-formed ones yields
exactly 99 entries. -/
theorem C7_partial_failure_resilience :
    (∀ (t : FsTree) (c : Cache), indexTree t c = insertAdvisories c (goodFiles t)) ∧
    (∀ name msg rest c, indexTree (.file name (.error msg) rest) c = indexTree rest c) ∧
    (∀ name entries rest c,
      indexTree (.dir name false entries rest) c = indexTree rest c) ∧
    (indexTree demoTree []).length = 99 := by
  refine ⟨fun t => indexTree_eq_goodFiles t, ?_, ?_, by decide⟩
  · intro name msg rest c
    simp [indexTree]
  · intro name entries rest c
    simp [indexTree]

/-- C6: the store is invariant under queries and under repeated builds:
`buildIndex` is a no-op once `indexBuilt` holds, iterating it `n ≥ 1` times
equals one invocation, every query's state effect is exactly `buildIndex`,
and on an already-built state every query leaves the state unchanged. -/
theorem C6_store_invariance :
    (∀ (tree : FsTree) (s : SourceState), s.indexBuilt = true →
      buildIndex tree s = s) ∧
    (∀ (tree : FsTree) (s : SourceState) (n : ℕ), 1 ≤ n →
      (buildIndex tree)^[n] s = buildIndex tree s) ∧
    (∀ tree s o, (listAdvisoriesCall tree s o).1 = buildIndex tree s) ∧
    (∀ tree s ghsaId, (getAdvisoryCall tree s ghsaId).1 = buildIndex tree s) ∧
    (∀ tree s q o, (searchAdvisoriesCall tree s q o).1 = buildIndex tree s) ∧
    (∀ tree s o ghsaId q o2, s.indexBuilt = true →
      (listAdvisoriesCall tree s o).1 = s ∧
      (getAdvisoryCall tree s ghsaId).1 = s ∧
      (searchAdvisoriesCall tree s q o2).1 = s) := by
  have hnoop : ∀ (tree : FsTree) (s : SourceState), s.indexBuilt = true →
      buildIndex tree s = s := by
    intro tree s h
    unfold buildIndex
    rw [if_pos h]
  have hidem : ∀ tree s, buildIndex tree (buildIndex tree s) = buildIndex tree s := by
    intro tree s
    by_cases h : s.indexBuilt
    · rw [hnoop tree s h, hnoop tree s h]
    · unfold buildIndex
      simp [h]
  refine ⟨hnoop, ?_, fun _ _ _ => rfl, fun _ _ _ => rfl, fun _ _ _ _ => rfl, ?_⟩
  · intro tree s n hn
    induction n with
    | zero => omega
    | succ m ih =>
      rcases Nat.eq_or_lt_of_le hn with h1 | h1
      · rw [← h1]
        simp
      · have hm : 1 ≤ m := by omega
        rw [Function.iterate_succ_apply', ih hm, hidem]
  · intro tree s o ghsaId q o2 h
    exact ⟨by simp [listAdvisoriesCall, hnoop tree s h],
           by simp [getAdvisoryCall, hnoop tree s h],
           by simp [searchAdvisoriesCall, hnoop tree s h]⟩

/-! ## Order-theory of JS string comparison and stable sorting -/

theorem lexLt_irrefl : ∀ l : List Char, lexLt l l = false
  | [] => rfl
  | c :: cs => by simp [lexLt, lexLt_irrefl cs]

theorem lexLt_asymm : ∀ a b : List Char, lexLt a b = true → lexLt b a = false
  | [], [], h => by simp [lexLt] at h
  | [], _ :: _, _ => rfl
  | _ :: _, [], h => by simp [lexLt] at h
  | a :: as, b :: bs, h => by
    simp only [lexLt, Bool.or_eq_true, Bool.and_eq_true, decide_eq_true_eq] at h
    show (decide (b.toNat < a.toNat) || (decide (b.toNat = a.toNat) && lexLt bs as)) = false
    rcases h with h | ⟨h1, h2⟩
    · rw [decide_eq_false (show ¬ b.toNat < a.toNat by omega),
        decide_eq_false (show ¬ b.toNat = a.toNat by omega)]
      rfl
    · rw [decide_eq_false (show ¬ b.toNat < a.toNat by omega),
        decide_eq_true (show b.toNat = a.toNat by omega), lexLt_asymm as bs h2]
      rfl

theorem lexLt_connex : ∀ a b c : List Char,
    lexLt a c = true → lexLt a b = true ∨ lexLt b c = true
  | [], _, [], h => by simp [lexLt] at h
  | [], [], _ :: _, _ => by right; rfl
  | [], _ :: _, _ :: _, _ => by left; rfl
  | _ :: _, _, [], h => by simp [lexLt] at h
  | a :: as, [], c :: cs, _ => by right; rfl
  | a :: as, b :: bs, c :: cs, h => by
    simp only [lexLt, Bool.or_eq_true, Bool.and_eq_true, decide_eq_true_eq] at h ⊢
    rcases h with h | ⟨h1, h2⟩
    · rcases Nat.lt_or_ge a.toNat b.toNat with hab | hab
      · left; left; exact hab
      · right
        rcases Nat.lt_or_ge b.toNat c.toNat with hbc | hbc
        · left; exact hbc
        · omega
    · rcases Nat.lt_or_ge a.toNat b.toNat with hab | hab
      · left; left; exact hab
      · rcases Nat.lt_or_ge b.toNat c.toNat with hbc | hbc
        · right; left; exact hbc
        · have hab2 : b.toNat = a.toNat := by omega
          have hbc2 : b.toNat = c.toNat := by omega
          rcases lexLt_connex as bs cs h2 with h3 | h3
          · left; right; exact ⟨by omega, h3⟩
          · right; right; exact ⟨by omega, h3⟩

theorem strLeB_refl (u : String) : strLeB u u = true := by
  simp [strLeB, strLtB, lexLt_irrefl]

theorem strLeB_total (u v : String) (h : strLeB u v = false) : strLeB v u = true := by
  simp only [strLeB, strLtB, Bool.not_eq_false'] at h
  simp [strLeB, strLtB, lexLt_asymm _ _ h]

theorem strLeB_trans (u v w : String) (h1 : strLeB u v = true)
    (h2 : strLeB v w = true) : strLeB u w = true := by
  have h1' : lexLt v.data u.data = false := by
    simpa [strLeB, strLtB] using h1
  have h2' : lexLt w.data v.data = false := by
    simpa [strLeB, strLtB] using h2
  simp only [strLeB, strLtB, Bool.not_eq_true']
  cases hc : lexLt w.data u.data with
  | false => rfl
  | true =>
    rcases lexLt_connex w.data v.data u.data hc with h3 | h3
    · rw [h2'] at h3; cases h3
    · rw [h1'] at h3; cases h3

theorem mem_insertStable {α : Type} (le : α → α → Bool) (x : α) :
    ∀ (l : List α) (z : α), z ∈ insertStable le x l ↔ z = x ∨ z ∈ l
  | [], z => by simp [insertStable]
  | y :: ys, z => by
    simp only [insertStable]
    split
    · simp only [List.mem_cons, mem_insertStable le x ys z]
      tauto
    · simp only [List.mem_cons]

theorem pairwise_insertStable {α : Type} (le : α → α → Bool)
    (htot : ∀ a b, le a b = false → le b a = true)
    (htrans : ∀ a b c, le a b = true → le b c = true → le a c = true)
    (x : α) :
    ∀ l : List α, l.Pairwise (fun a b => le a b = true) →
      (insertStable le x l).Pairwise (fun a b => le a b = true)
  | [], _ => by simp [insertStable]
  | y :: ys, h => by
    rcases List.pairwise_cons.mp h with ⟨hy, hys⟩
    simp only [insertStable]
    split
    · rename_i hyx
      refine List.pairwise_cons.mpr ⟨?_, pairwise_insertStable le htot htrans x ys hys⟩
      intro z hz
      rcases (mem_insertStable le x ys z).mp hz with hz | hz
      · subst hz; exact hyx
      · exact hy z hz
    · rename_i hyx
      have hxy : le x y = true := htot _ _ (by simpa using hyx)
      refine List.pairwise_cons.mpr ⟨?_, h⟩
      intro z hz
      rcases List.mem_cons.mp hz with hz | hz
      · subst hz; exact hxy
      · exact htrans _ _ _ hxy (hy z hz)

theorem pairwise_stableSortBy {α : Type} (le : α → α → Bool)
    (htot : ∀ a b, le a b = false → le b a = true)
    (htrans : ∀ a b c, le a b = true → le b c = true → le a c = true)
    (l : List α) : (stableSortBy le l).Pairwise (fun a b => le a b = true) := by
  unfold stableSortBy
  have haux : ∀ (l2 : List α) (acc : List α),
      acc.Pairwise (fun a b => le a b = true) →
      (l2.foldl (fun acc2 x => insertStable le x acc2) acc).Pairwise
        (fun a b => le a b = true) := by
    intro l2
    induction l2 with
    | nil => intro acc h; simpa using h
    | cons x xs ih =>
      intro acc h
      exact ih _ (pairwise_insertStable le htot htrans x acc h)
  exact haux l [] (by simp)

theorem filter_insertStable_key {α : Type} (k : α → String)
    (cle : String → String → Bool) (hrefl : ∀ u, cle u u = true)
    (x : α) (key0 : String) :
    ∀ l : List α, l.Pairwise (fun a b => cle (k a) (k b) = true) →
      (insertStable (fun a b => cle (k a) (k b)) x l).filter
          (fun a => decide (k a = key0)) =
        if k x = key0 then
          l.filter (fun a => decide (k a = key0)) ++ [x]
        else l.filter (fun a => decide (k a = key0))
  | [], _ => by
    by_cases hx : k x = key0 <;> simp [insertStable, hx]
  | y :: ys, h => by
    rcases List.pairwise_cons.mp h with ⟨hy, hys⟩
    simp only [insertStable]
    by_cases hyx : cle (k y) (k x) = true
    · rw [if_pos hyx]
      have ihr := filter_insertStable_key k cle hrefl x key0 ys hys
      by_cases hky : k y = key0 <;> by_cases hkx : k x = key0 <;>
        simp [List.filter_cons, hky, hkx, ihr]
    · rw [if_neg hyx]
      have hyxf : cle (k y) (k x) = false := by simpa using hyx
      by_cases hkx : k x = key0
      · have hfilter : (y :: ys).filter (fun a => decide (k a = key0)) = [] := by
          rw [List.filter_eq_nil_iff]
          intro z hz
          simp only [decide_eq_true_eq]
          intro hkz
          rcases List.mem_cons.mp hz with hz2 | hz2
          · subst hz2
            rw [hkz, ← hkx] at hyxf
            rw [hrefl] at hyxf
            cases hyxf
          · have := hy z hz2
            rw [hkz, ← hkx] at this
            rw [this] at hyxf
            cases hyxf
        rw [if_pos hkx]
        rw [hfilter]
        simp [List.filter_cons, hkx, hfilter]
      · rw [if_neg hkx]
        simp [List.filter_cons, hkx]

theorem filter_stableSortBy_key {α : Type} (k : α → String)
    (cle : String → String → Bool) (hrefl : ∀ u, cle u u = true)
    (htot : ∀ u v, cle u v = false → cle v u = true)
    (htrans : ∀ u v w, cle u v = true → cle v w = true → cle u w = true)
    (l : List α) (key0 : String) :
    (stableSortBy (fun a b => cle (k a) (k b)) l).filter
        (fun a => decide (k a = key0)) =
      l.filter (fun a => decide (k a = key0)) := by
  unfold stableSortBy
  have haux : ∀ (l2 : List α) (acc : List α),
      acc.Pairwise (fun a b => cle (k a) (k b) = true) →
      (l2.foldl (fun acc2 x => insertStable (fun a b => cle (k a) (k b)) x acc2)
          acc).filter (fun a => decide (k a = key0)) =
        acc.filter (fun a => decide (k a = key0)) ++
          l2.filter (fun a => decide (k a = key0)) := by
    intro l2
    induction l2 with
    | nil => intro acc h; simp
    | cons x xs ih =>
      intro acc h
      have hsorted : (insertStable (fun a b => cle (k a) (k b)) x acc).Pairwise
          (fun a b => cle (k a) (k b) = true) :=
        pairwise_insertStable (fun a b => cle (k a) (k b))
          (fun a b hab => htot (k a) (k b) hab)
          (fun a b c h1 h2 => htrans (k a) (k b) (k c) h1 h2) x acc h
      rw [List.foldl_cons, ih _ hsorted,
        filter_insertStable_key k cle hrefl x key0 acc h]
      simp only [List.filter_cons]
      split
      · rename_i hkx
        rw [if_pos (by simpa using hkx)]
        simp
      · rename_i hkx
        rw [if_neg (by simpa using hkx)]
  simpa using haux l [] (by simp)

/-- C8: `list` results are sorted by the requested field (default
published) in the requested direction (default descending) under
lexicographic string comparison, and the sort is stable: the subsequence
of advisories sharing any sort-key value is preserved exactly. -/
theorem C8_sort_semantics :
    ∀ (o : AdvisoryListOptions) (l : List Advisory),
      (o.direction = some "asc" →
        (sortStep o l).Pairwise
          (fun a b => strLeB (sortKey o a) (sortKey o b) = true)) ∧
      (o.direction ≠ some "asc" →
        (sortStep o l).Pairwise
          (fun a b => strLeB (sortKey o b) (sortKey o a) = true)) ∧
      (∀ key0, (sortStep o l).filter (fun a => decide (sortKey o a = key0)) =
        l.filter (fun a => decide (sortKey o a = key0))) ∧
      (o.sort = none → ∀ a, sortKey o a = a.published_at) ∧
      (o.sort = some "updated" → ∀ a, sortKey o a = a.updated_at) := by
  intro o l
  by_cases hdir : o.direction = some "asc"
  · have hle : sortLe o = fun a b => strLeB (sortKey o a) (sortKey o b) := by
      funext a b
      simp [sortLe, hdir]
    refine ⟨fun _ => ?_, fun h => absurd hdir h, fun key0 => ?_, ?_, ?_⟩
    · have hp := pairwise_stableSortBy (fun a b => strLeB (sortKey o a) (sortKey o b))
        (fun a b hab => strLeB_total _ _ hab)
        (fun a b c h1 h2 => strLeB_trans _ _ _ h1 h2) l
      simpa [sortStep, hle] using hp
    · have hf := filter_stableSortBy_key (sortKey o) strLeB strLeB_refl
        strLeB_total strLeB_trans l key0
      simpa [sortStep, hle] using hf
    · intro hs a
      simp [sortKey, jsOrStr, hs]
    · intro hs a
      simp [sortKey, jsOrStr, hs]
  · have hle : sortLe o = fun a b => strLeB (sortKey o b) (sortKey o a) := by
      funext a b
      simp [sortLe, hdir]
    refine ⟨fun h => absurd h hdir, fun _ => ?_, fun key0 => ?_, ?_, ?_⟩
    · have hp := pairwise_stableSortBy (fun a b => strLeB (sortKey o b) (sortKey o a))
        (fun a b hab => strLeB_total _ _ hab)
        (fun a b c h1 h2 => strLeB_trans _ _ _ h2 h1) l
      simpa [sortStep, hle] using hp
    · have hf := filter_stableSortBy_key (sortKey o) (fun u v => strLeB v u)
        (fun u => strLeB_refl u) (fun u v h => strLeB_total v u h)
        (fun u v w h1 h2 => strLeB_trans w v u h2 h1) l key0
      simpa [sortStep, hle] using hf
    · intro hs a
      simp [sortKey, jsOrStr, hs]
    · intro hs a
      simp [sortKey, jsOrStr, hs]

/-- For non-negative bounds, `slice` is plain drop/take. -/
theorem jsSlice_drop_take {α : Type} (l : List α) (s e : ℤ)
    (hs : 0 ≤ s) (he : 0 ≤ e) :
    jsSlice l s e = (l.drop s.toNat).take (e - s).toNat := by
  simp only [jsSlice]
  rw [if_neg (by omega), if_neg (by omega)]
  rcases le_or_lt (l.length : ℤ) s with hsl | hsl
  · have h1 : min s (l.length : ℤ) = (l.length : ℤ) := by omega
    rw [h1]
    rw [List.drop_eq_nil_of_le (by simp), List.drop_eq_nil_of_le (by omega)]
    simp
  · have h1 : min s (l.length : ℤ) = s := by omega
    rw [h1]
    rcases le_or_lt (l.length : ℤ) e with hel | hel
    · have h2 : min e (l.length : ℤ) = (l.length : ℤ) := by omega
      rw [h2]
      rw [List.take_of_length_le, List.take_of_length_le]
      · rw [List.length_drop]; omega
      · rw [List.length_drop]; omega
    · have h2 : min e (l.length : ℤ) = e := by omega
      rw [h2]

/-- C2: after filtering and sorting, `list` returns exactly the slice
`[(page-1)*perPage, page*perPage)` of the matching sequence, with
`per_page` defaulting to 30 and `page` to 1; a page past the end yields an
empty sequence (never an error); no 100-cap is applied to `per_page`
(the given value is used as is, however large). -/
theorem C2_pagination :
    ∀ (store : List Advisory) (o : AdvisoryListOptions) (fl : List Advisory)
      (page perPage : ℤ),
      applyFilters store o = some fl →
      (o.page = some page ∨ (o.page = none ∧ page = 1)) →
      (o.per_page = some perPage ∨ (o.per_page = none ∧ perPage = 30)) →
      1 ≤ page → 1 ≤ perPage →
      listAdvisoriesPure store o =
        some (((sortStep o fl).drop ((page - 1) * perPage).toNat).take
          perPage.toNat) ∧
      ((sortStep o fl).length ≤ ((page - 1) * perPage).toNat →
        listAdvisoriesPure store o = some []) := by
  intro store o fl page perPage happ hpage hper h1 h2
  have hpg : jsOrNum o.page 1 = page := by
    rcases hpage with h | ⟨h, h2'⟩
    · rw [h]
      simp only [jsOrNum]
      rw [if_neg (by omega)]
    · rw [h, h2']
      rfl
  have hpp : jsOrNum o.per_page 30 = perPage := by
    rcases hper with h | ⟨h, h2'⟩
    · rw [h]
      simp only [jsOrNum]
      rw [if_neg (by omega)]
    · rw [h, h2']
      rfl
  have hmain : listAdvisoriesPure store o =
      some (((sortStep o fl).drop ((page - 1) * perPage).toNat).take
        perPage.toNat) := by
    unfold listAdvisoriesPure
    rw [happ]
    show some (paginate o (sortStep o fl)) = _
    congr 1
    simp only [paginate]
    rw [hpg, hpp]
    rw [jsSlice_drop_take _ _ _
      (mul_nonneg (by omega) (by omega))
      (by have := mul_nonneg (show (0:ℤ) ≤ page - 1 by omega)
            (show (0:ℤ) ≤ perPage by omega)
          omega)]
    have harith : (page - 1) * perPage + perPage - (page - 1) * perPage = perPage := by
      ring
    rw [harith]
  refine ⟨hmain, fun hlen => ?_⟩
  rw [hmain, List.drop_eq_nil_of_le hlen, List.take_nil]

theorem prefAt_iff : ∀ sub hay : List Char, prefAt sub hay = true ↔ sub <+: hay
  | [], hay => by simp [prefAt]
  | a :: as, [] => by simp [prefAt, List.prefix_nil]
  | a :: as, b :: bs => by
    simp [prefAt, prefAt_iff as bs, List.cons_prefix_cons]

theorem hasSub_iff : ∀ sub hay : List Char, hasSub sub hay = true ↔ sub <:+: hay
  | sub, [] => by
    simp [hasSub, prefAt_iff, List.prefix_nil, List.infix_nil]
  | sub, c :: t => by
    rw [hasSub, Bool.or_eq_true, prefAt_iff, hasSub_iff sub t, List.infix_cons_iff]

/-- C4: `search` keeps exactly the advisories whose lower-cased id,
secondary id, summary or detail text contains the lower-cased query as a
substring; it then applies only the `list` ecosystem/severity filters and a
`per_page` (default 30) truncation — it is insensitive to all the other
`list` filters (dates, CWE, withdrawal flag, package name, ids). -/
theorem C4_search_semantics :
    (∀ (q : String) (a : Advisory),
      searchMatch (lowerStr q) a = true ↔
        ((lowerStr q).data <:+: (lowerStr a.summary).data ∨
         (∃ d, a.description = some d ∧
            (lowerStr q).data <:+: (lowerStr d).data) ∨
         (lowerStr q).data <:+: (lowerStr a.ghsa_id).data ∨
         (∃ c, a.cve_id = some c ∧
            (lowerStr q).data <:+: (lowerStr c).data))) ∧
    (∀ store q o, searchAdvisoriesPure store q o =
      jsSlice (filterSev o (filterEco o (store.filter (searchMatch (lowerStr q)))))
        0 (jsOrNum o.per_page 30)) ∧
    (∀ (store : List Advisory) (q : String) (o : AdvisoryListOptions)
      (perPage : ℤ),
      (o.per_page = some perPage ∨ (o.per_page = none ∧ perPage = 30)) →
      1 ≤ perPage →
      searchAdvisoriesPure store q o =
        (filterSev o (filterEco o (store.filter (searchMatch (lowerStr q))))).take
          perPage.toNat) ∧
    (∀ store q o o2,
      o.ecosystem = o2.ecosystem → o.severity = o2.severity →
      o.per_page = o2.per_page →
      searchAdvisoriesPure store q o = searchAdvisoriesPure store q o2) := by
  have hpart2 : ∀ store q o, searchAdvisoriesPure store q o =
      jsSlice (filterSev o (filterEco o (store.filter (searchMatch (lowerStr q)))))
        0 (jsOrNum o.per_page 30) := fun _ _ _ => rfl
  refine ⟨?_, hpart2, ?_, ?_⟩
  · intro q a
    rcases hd : a.description with _ | d <;> rcases hc : a.cve_id with _ | c <;>
      simp only [searchMatch, strIncludes, Bool.or_eq_true, hasSub_iff, hd, hc,
        Option.some.injEq, exists_eq_left, exists_false, false_and,
        exists_and_left, exists_eq_left'] <;>
      tauto
  · intro store q o perPage hper h1
    have hpp : jsOrNum o.per_page 30 = perPage := by
      rcases hper with h | ⟨h, h2'⟩
      · rw [h]
        simp only [jsOrNum]
        rw [if_neg (by omega)]
      · rw [h, h2']
        rfl
    rw [hpart2, hpp, jsSlice_drop_take _ _ _ le_rfl (by omega)]
    simp
  · intro store q o o2 h1 h2 h3
    unfold searchAdvisoriesPure filterResults
    rw [h1, h2, h3]

/-- 35 advisories with identical timestamps and distinct ids. -/
def store35 : List Advisory :=
  (List.range 35).map (fun i => mkAdv (String.mk (pad2 i)) "p" "u")

theorem C2_pagination_witness :
    (listAdvisoriesPure store35 { per_page := some 30, page := some 2 }).map
      List.length = some 5 ∧
    listAdvisoriesPure store35 { per_page := some 30, page := some 3 } =
      some [] := by
  have h2 := C2_pagination store35 { per_page := some 30, page := some 2 }
    store35 2 30 rfl (Or.inl rfl) (Or.inl rfl) (by norm_num) (by norm_num)
  have h3 := C2_pagination store35 { per_page := some 30, page := some 3 }
    store35 3 30 rfl (Or.inl rfl) (Or.inl rfl) (by norm_num) (by norm_num)
  refine ⟨?_, h3.2 (by decide)⟩
  rw [h2.1]
  decide

theorem C4_search_semantics_witness :
    searchAdvisoriesPure [mkAdv "GHSA-needle-1" "p" "u"] "NEEDLE"
      ({} : AdvisoryListOptions) = [mkAdv "GHSA-needle-1" "p" "u"] := by
  have h := C4_search_semantics.2.2.1 [mkAdv "GHSA-needle-1" "p" "u"] "NEEDLE"
    ({} : AdvisoryListOptions) 30 (Or.inr ⟨rfl, rfl⟩) (by norm_num)
  rw [h]
  decide

/-- Two advisories sharing every timestamp. -/
def demoPair : List Advisory := [mkAdv "a" "p" "u", mkAdv "b" "p" "u"]

theorem C8_sort_semantics_witness :
    (sortStep { direction := some "asc" } demoPair).Pairwise
      (fun a b => strLeB (sortKey { direction := some "asc" } a)
        (sortKey { direction := some "asc" } b) = true) ∧
    (sortStep ({} : AdvisoryListOptions) demoPair).filter
        (fun a => decide (sortKey ({} : AdvisoryListOptions) a = "p")) =
      demoPair.filter
        (fun a => decide (sortKey ({} : AdvisoryListOptions) a = "p")) ∧
    sortKey ({} : AdvisoryListOptions) (mkAdv "a" "p" "u") = "p" :=
  ⟨(C8_sort_semantics { direction := some "asc" } demoPair).1 rfl,
   (C8_sort_semantics ({} : AdvisoryListOptions) demoPair).2.2.1 "p",
   (C8_sort_semantics ({} : AdvisoryListOptions) demoPair).2.2.2.1 rfl
     (mkAdv "a" "p" "u")⟩

theorem C6_store_invariance_witness :
    buildIndex demoTree { cache := [], indexBuilt := true } =
      { cache := [], indexBuilt := true } ∧
    (buildIndex demoTree)^[3] { cache := [], indexBuilt := false } =
      buildIndex demoTree { cache := [], indexBuilt := false } ∧
    (listAdvisoriesCall demoTree { cache := [], indexBuilt := true }
      ({} : AdvisoryListOptions)).1 = { cache := [], indexBuilt := true } :=
  ⟨C6_store_invariance.1 demoTree _ rfl,
   C6_store_invariance.2.1 demoTree _ 3 (by norm_num),
   (C6_store_invariance.2.2.2.2.2 demoTree _ ({} : AdvisoryListOptions) "x" "q"
     ({} : AdvisoryListOptions) rfl).1⟩

/-! ## Chronological order vs string order on rendered timestamps -/

/-- Mixed-radix rank of a calendar date (order-isomorphic to chronological
order on valid dates). -/
def dateOrd (d : CalDate) : ℕ := (d.y * 13 + d.m) * 32 + d.d

/-- Seconds since midnight. -/
def timeOrd (t : CalTime) : ℕ := (t.h * 60 + t.mi) * 60 + t.s

/-- Rank of a UTC instant; an order embedding of the UTC timeline restricted
to valid calendar date-times, so interval statements about instants can be
phrased through it. -/
def instVal (d : CalDate) (t : CalTime) : ℕ := dateOrd d * 86400 + timeOrd t

/-- Size bounds sufficient for rendering/comparison arguments (weaker than
`validDate`: also satisfied by the successor of a valid date). -/
def dateBounds (dt : CalDate) : Prop :=
  dt.y < 10000 ∧ 1 ≤ dt.m ∧ dt.m ≤ 12 ∧ 1 ≤ dt.d ∧ dt.d ≤ 31

theorem daysInMonth_le (y m : ℕ) : daysInMonth y m ≤ 31 := by
  unfold daysInMonth
  split
  · split <;> omega
  · split <;> omega

theorem dateBounds_of_valid {dt : CalDate} (h : validDate dt) : dateBounds dt := by
  obtain ⟨h1, h2, h3, h4, h5, h6⟩ := h
  exact ⟨by omega, h3, h4, h5, le_trans h6 (daysInMonth_le dt.y dt.m)⟩

theorem dateBounds_nextDay {dt : CalDate} (h : validDate dt) :
    dateBounds (nextDay dt) := by
  obtain ⟨h1, h2, h3, h4, h5, h6⟩ := h
  have h7 := daysInMonth_le dt.y dt.m
  unfold nextDay
  split
  · unfold dateBounds
    dsimp only
    omega
  · split
    · unfold dateBounds
      dsimp only
      omega
    · unfold dateBounds
      dsimp only
      omega

theorem digitChar_toNat (n : ℕ) : (digitChar n).toNat = 48 + n % 10 := by
  have hta : ∀ m < 10, (Char.ofNat (48 + m)).toNat = 48 + m := by decide
  exact hta (n % 10) (Nat.mod_lt _ (by omega))

theorem digitChar_eq_iff (m n : ℕ) : digitChar m = digitChar n ↔ m % 10 = n % 10 := by
  constructor
  · intro h
    have h2 := congrArg Char.toNat h
    rw [digitChar_toNat, digitChar_toNat] at h2
    omega
  · intro h
    unfold digitChar
    rw [h]

theorem pad2_lt_iff (a b : ℕ) (ha : a < 100) (hb : b < 100) :
    lexLt (pad2 a) (pad2 b) = true ↔ a < b := by
  simp only [pad2, lexLt, digitChar_toNat, Bool.or_eq_true,
    Bool.and_eq_true, decide_eq_true_eq]
  constructor
  · rintro (h | ⟨h1, h | ⟨h2, h3⟩⟩)
    · omega
    · omega
    · simp at h3
  · intro h
    rcases Nat.lt_trichotomy (a / 10 % 10) (b / 10 % 10) with h1 | h1 | h1
    · left
      omega
    · right
      exact ⟨by omega, Or.inl (by omega)⟩
    · exfalso
      omega

theorem pad2_eq_iff (a b : ℕ) (ha : a < 100) (hb : b < 100) :
    pad2 a = pad2 b ↔ a = b := by
  simp only [pad2, List.cons.injEq, and_true, digitChar_eq_iff]
  omega

theorem pad4_decomp (n : ℕ) : pad4 n = pad2 (n / 100) ++ pad2 (n % 100) := by
  simp only [pad4, pad2, digitChar, List.cons_append, List.nil_append]
  rw [show n / 100 / 10 % 10 = n / 1000 % 10 by omega,
    show n % 100 / 10 % 10 = n / 10 % 10 by omega,
    show n % 100 % 10 = n % 10 by omega]

theorem lexLt_cons_same (c : Char) (as bs : List Char) :
    lexLt (c :: as) (c :: bs) = lexLt as bs := by
  simp [lexLt]

theorem lexLt_append_iff : ∀ (xs ys as bs : List Char), xs.length = ys.length →
    (lexLt (xs ++ as) (ys ++ bs) = true ↔
      (lexLt xs ys = true ∨ (xs = ys ∧ lexLt as bs = true)))
  | [], [], as, bs, _ => by simp [lexLt]
  | [], y :: ys, _, _, h => by simp at h
  | x :: xs, [], _, _, h => by simp at h
  | x :: xs, y :: ys, as, bs, h => by
    simp only [List.cons_append, lexLt, Bool.or_eq_true, Bool.and_eq_true,
      decide_eq_true_eq, List.cons.injEq, List.append_eq]
    rw [lexLt_append_iff xs ys as bs (by simpa using h)]
    constructor
    · rintro (h1 | ⟨h1, h2 | ⟨h2, h3⟩⟩)
      · exact Or.inl (Or.inl h1)
      · exact Or.inl (Or.inr ⟨h1, h2⟩)
      · exact Or.inr ⟨⟨Char.ext (UInt32.ext h1), h2⟩, h3⟩
    · rintro ((h1 | ⟨h1, h2⟩) | ⟨⟨h1, h2⟩, h3⟩)
      · exact Or.inl h1
      · exact Or.inr ⟨h1, Or.inl h2⟩
      · exact Or.inr ⟨by rw [h1], Or.inr ⟨h2, h3⟩⟩

theorem pad2_length (n : ℕ) : (pad2 n).length = 2 := rfl

theorem pad4_length (n : ℕ) : (pad4 n).length = 4 := rfl

theorem renderDate_length (d : CalDate) : (renderDate d).length = 10 := rfl

theorem renderTime_length (t : CalTime) : (renderTime t).length = 8 := rfl

theorem pad4_lt_iff (a b : ℕ) (ha : a < 10000) (hb : b < 10000) :
    lexLt (pad4 a) (pad4 b) = true ↔ a < b := by
  rw [pad4_decomp a, pad4_decomp b,
    lexLt_append_iff _ _ _ _ (by rw [pad2_length, pad2_length]),
    pad2_lt_iff _ _ (by omega) (by omega), pad2_eq_iff _ _ (by omega) (by omega),
    pad2_lt_iff _ _ (by omega) (by omega)]
  constructor
  · rintro (h | ⟨h1, h2⟩) <;> omega
  · intro h
    rcases Nat.lt_trichotomy (a / 100) (b / 100) with h1 | h1 | h1
    · exact Or.inl h1
    · exact Or.inr ⟨h1, by omega⟩
    · exfalso
      omega

theorem pad4_eq_iff (a b : ℕ) (ha : a < 10000) (hb : b < 10000) :
    pad4 a = pad4 b ↔ a = b := by
  rw [pad4_decomp a, pad4_decomp b]
  constructor
  · intro h
    obtain ⟨h1, h2⟩ := List.append_inj h rfl
    rw [pad2_eq_iff _ _ (by omega) (by omega)] at h1
    rw [pad2_eq_iff _ _ (by omega) (by omega)] at h2
    omega
  · intro h
    rw [h]

theorem renderDate_lt_iff (a b : CalDate) (ha : dateBounds a) (hb : dateBounds b) :
    lexLt (renderDate a) (renderDate b) = true ↔ dateOrd a < dateOrd b := by
  obtain ⟨ha1, ha2, ha3, ha4, ha5⟩ := ha
  obtain ⟨hb1, hb2, hb3, hb4, hb5⟩ := hb
  unfold renderDate
  rw [lexLt_append_iff _ _ _ _ (by rw [pad4_length, pad4_length]), lexLt_cons_same,
    lexLt_append_iff _ _ _ _ (by rw [pad2_length, pad2_length]), lexLt_cons_same,
    pad4_lt_iff _ _ (by omega) (by omega), pad4_eq_iff _ _ (by omega) (by omega),
    pad2_lt_iff _ _ (by omega) (by omega), pad2_eq_iff _ _ (by omega) (by omega),
    pad2_lt_iff _ _ (by omega) (by omega)]
  unfold dateOrd
  constructor
  · rintro (h | ⟨h1, h | ⟨h2, h3⟩⟩) <;> omega
  · intro h
    rcases Nat.lt_trichotomy a.y b.y with h1 | h1 | h1
    · exact Or.inl h1
    · rcases Nat.lt_trichotomy a.m b.m with h2 | h2 | h2
      · exact Or.inr ⟨h1, Or.inl h2⟩
      · exact Or.inr ⟨h1, Or.inr ⟨h2, by omega⟩⟩
      · exfalso
        omega
    · exfalso
      omega

theorem validTime_zero : validTime ⟨0, 0, 0⟩ := by decide

theorem timeOrd_lt (t : CalTime) (ht : validTime t) : timeOrd t < 86400 := by
  obtain ⟨h1, h2, h3⟩ := ht
  unfold timeOrd
  omega

theorem renderTime_lt_iff (t u : CalTime) (ht : validTime t) (hu : validTime u) :
    lexLt (renderTime t) (renderTime u) = true ↔ timeOrd t < timeOrd u := by
  obtain ⟨ht1, ht2, ht3⟩ := ht
  obtain ⟨hu1, hu2, hu3⟩ := hu
  unfold renderTime
  rw [lexLt_append_iff _ _ _ _ (by rw [pad2_length, pad2_length]), lexLt_cons_same,
    lexLt_append_iff _ _ _ _ (by rw [pad2_length, pad2_length]), lexLt_cons_same,
    pad2_lt_iff _ _ (by omega) (by omega), pad2_eq_iff _ _ (by omega) (by omega),
    pad2_lt_iff _ _ (by omega) (by omega), pad2_eq_iff _ _ (by omega) (by omega),
    pad2_lt_iff _ _ (by omega) (by omega)]
  unfold timeOrd
  constructor
  · rintro (h | ⟨h1, h | ⟨h2, h3⟩⟩) <;> omega
  · intro h
    rcases Nat.lt_trichotomy t.h u.h with h1 | h1 | h1
    · exact Or.inl h1
    · rcases Nat.lt_trichotomy t.mi u.mi with h2 | h2 | h2
      · exact Or.inr ⟨h1, Or.inl h2⟩
      · exact Or.inr ⟨h1, Or.inr ⟨h2, by omega⟩⟩
      · exfalso
        omega
    · exfalso
      omega

/-- Comparing a canonical timestamp against a midnight boundary string
whose final segment compares above `'Z'`-terminated times reduces to the
date comparison alone. -/
theorem lexLt_ts_boundary_iff (dt e : CalDate) (t : CalTime) (tail : List Char)
    (hdt : dateBounds dt) (he : dateBounds e) (ht : validTime t)
    (htail : lexLt ['Z'] tail = false) :
    (lexLt (renderDate dt ++ 'T' :: (renderTime t ++ ['Z']))
        (renderDate e ++ 'T' :: (renderTime ⟨0, 0, 0⟩ ++ tail)) = true) ↔
      dateOrd dt < dateOrd e := by
  rw [lexLt_append_iff _ _ _ _ (by rw [renderDate_length, renderDate_length]),
    lexLt_cons_same,
    lexLt_append_iff _ _ _ _ (by rw [renderTime_length, renderTime_length]),
    renderDate_lt_iff dt e hdt he,
    renderTime_lt_iff t ⟨0, 0, 0⟩ ht validTime_zero, htail]
  have ht0 : timeOrd ⟨0, 0, 0⟩ = 0 := rfl
  constructor
  · rintro (h | ⟨h1, h2 | ⟨h2, h3⟩⟩)
    · exact h
    · rw [ht0] at h2
      omega
    · simp at h3
  · intro h
    exact Or.inl h

theorem isDigit_digitChar (k : ℕ) : isDigitCh (digitChar k) = true := by
  simp only [isDigitCh, digitChar_toNat, decide_eq_true_eq]
  omega

theorem digitVal_digitChar (k : ℕ) : digitVal (digitChar k) = k % 10 := by
  unfold digitVal
  rw [digitChar_toNat]
  omega

theorem parse2_pad2 (n : ℕ) (hn : n < 100) (rest : List Char) :
    parse2 (pad2 n ++ rest) = some (n, rest) := by
  show parse2 (digitChar (n / 10) :: digitChar n :: rest) = some (n, rest)
  unfold parse2
  dsimp only
  rw [if_pos ⟨isDigit_digitChar _, isDigit_digitChar _⟩]
  rw [digitVal_digitChar, digitVal_digitChar]
  have harith : n / 10 % 10 * 10 + n % 10 = n := by omega
  rw [harith]

theorem parse4_pad4 (n : ℕ) (hn : n < 10000) (rest : List Char) :
    parse4 (pad4 n ++ rest) = some (n, rest) := by
  show parse4 (digitChar (n / 1000) :: digitChar (n / 100) ::
    digitChar (n / 10) :: digitChar n :: rest) = some (n, rest)
  unfold parse4
  dsimp only
  rw [if_pos ⟨isDigit_digitChar _, isDigit_digitChar _, isDigit_digitChar _,
    isDigit_digitChar _⟩]
  rw [digitVal_digitChar, digitVal_digitChar, digitVal_digitChar, digitVal_digitChar]
  have harith : n / 1000 % 10 * 1000 + n / 100 % 10 * 100 + n / 10 % 10 * 10 +
      n % 10 = n := by omega
  rw [harith]

theorem jsDateParse_render (f : CalDate) (hf : validDate f) :
    jsDateParseMidnight (String.mk (renderDate f ++ "T00:00:00Z".data)) = some f := by
  obtain ⟨h1, h2, h3, h4, h5, h6⟩ := hf
  have h7 := daysInMonth_le f.y f.m
  unfold jsDateParseMidnight
  show (match parse4 (renderDate f ++ "T00:00:00Z".data) with
    | none => none
    | some (y, r1) => _) = some f
  rw [show renderDate f ++ "T00:00:00Z".data =
    pad4 f.y ++ (('-' :: (pad2 f.m ++ '-' :: pad2 f.d)) ++ "T00:00:00Z".data) from by
      simp [renderDate]]
  rw [parse4_pad4 f.y (by omega)]
  rw [List.cons_append]
  dsimp only
  rw [if_pos rfl]
  rw [List.append_assoc, parse2_pad2 f.m (by omega)]
  rw [List.cons_append]
  dsimp only
  rw [if_pos rfl]
  rw [parse2_pad2 f.d (by omega)]
  dsimp only
  rw [if_pos ⟨rfl, h3, h4, h5, h6⟩]

theorem noDot_renderDate (f : CalDate) : ∀ c ∈ renderDate f, c ≠ '.' := by
  have hdot : ('.' : Char).toNat = 46 := by decide
  have hd : ∀ k, digitChar k ≠ '.' := by
    intro k h
    have h2 := congrArg Char.toNat h
    rw [digitChar_toNat, hdot] at h2
    omega
  have hne : ∀ k, (('.' : Char) = digitChar k) = False :=
    fun k => eq_false (fun h => hd k h.symm)
  have hne2 : (('.' : Char) = '-') = False := eq_false (by decide)
  intro c hc he
  subst he
  simp [renderDate, pad4, pad2, hne, hne2] at hc

theorem hasDotDot_of_no_dots : ∀ l : List Char, (∀ c ∈ l, c ≠ '.') →
    hasDotDot l = false
  | [], _ => rfl
  | [_], _ => rfl
  | c1 :: c2 :: cs, h => by
    show ((c1 = '.' && c2 = '.') || hasDotDot (c2 :: cs)) = false
    rw [hasDotDot_of_no_dots (c2 :: cs) (fun c hc => h c (List.mem_cons_of_mem _ hc))]
    have h1 : c1 ≠ '.' := h c1 (by simp)
    simp [h1]

theorem hasDotDot_append_dots (xs ys : List Char) :
    hasDotDot (xs ++ '.' :: '.' :: ys) = true := by
  induction xs with
  | nil => simp [hasDotDot]
  | cons x xs ih =>
    cases xs with
    | nil =>
      show ((x = '.' && ('.' : Char) = '.') || hasDotDot ('.' :: '.' :: ys)) = true
      have h2 : hasDotDot ('.' :: '.' :: ys) = true := by simp [hasDotDot]
      simp [h2]
    | cons x2 xs2 =>
      rw [List.cons_append] at ih
      show ((x = '.' && x2 = '.') || hasDotDot (x2 :: (xs2 ++ '.' :: '.' :: ys))) = true
      rw [ih]
      simp

theorem splitDotDot_no_dots : ∀ l : List Char, (∀ c ∈ l, c ≠ '.') →
    splitDotDot l = [l]
  | [], _ => rfl
  | [_], _ => rfl
  | c1 :: c2 :: cs, h => by
    have h1 : c1 ≠ '.' := h c1 (by simp)
    simp only [splitDotDot]
    rw [if_neg (fun hc => h1 hc.1)]
    rw [splitDotDot_no_dots (c2 :: cs) (fun c hc => h c (List.mem_cons_of_mem _ hc))]

theorem splitDotDot_append : ∀ xs ys : List Char, (∀ c ∈ xs, c ≠ '.') →
    splitDotDot (xs ++ '.' :: '.' :: ys) = xs :: splitDotDot ys
  | [], ys, _ => by
    simp only [List.nil_append, splitDotDot]
    rw [if_pos ⟨trivial, trivial⟩]
  | [x], ys, h => by
    have h1 : x ≠ '.' := h x (by simp)
    show splitDotDot (x :: '.' :: '.' :: ys) = [x] :: splitDotDot ys
    simp only [splitDotDot]
    rw [if_neg (fun hc => h1 hc.1), if_pos ⟨trivial, trivial⟩]
  | x1 :: x2 :: xs, ys, h => by
    have h1 : x1 ≠ '.' := h x1 (by simp)
    have ih := splitDotDot_append (x2 :: xs) ys
      (fun c hc => h c (List.mem_cons_of_mem _ hc))
    rw [List.cons_append] at ih
    show splitDotDot (x1 :: x2 :: (xs ++ '.' :: '.' :: ys)) =
      (x1 :: x2 :: xs) :: splitDotDot ys
    simp only [splitDotDot]
    rw [if_neg (fun hc => h1 hc.1), ih]

theorem parseDateFilter_single (f : CalDate) (hf : validDate f) :
    parseDateFilter (String.mk (renderDate f)) =
      some (toISOMidnight f, toISOMidnight (nextDay f)) := by
  unfold parseDateFilter
  rw [show (String.mk (renderDate f)).data = renderDate f from rfl]
  rw [hasDotDot_of_no_dots _ (noDot_renderDate f), jsDateParse_render f hf]
  simp only [Bool.false_eq_true, if_false]

theorem parseDateFilter_range (d1 d2 : CalDate) (hd2 : validDate d2) :
    parseDateFilter (String.mk (renderDate d1 ++ '.' :: '.' :: renderDate d2)) =
      some (String.mk (renderDate d1 ++ "T00:00:00Z".data),
        toISOMidnight (nextDay d2)) := by
  unfold parseDateFilter
  rw [show (String.mk (renderDate d1 ++ '.' :: '.' :: renderDate d2)).data =
    renderDate d1 ++ '.' :: '.' :: renderDate d2 from rfl]
  rw [hasDotDot_append_dots]
  rw [if_pos rfl]
  rw [splitDotDot_append _ _ (noDot_renderDate d1),
    splitDotDot_no_dots _ (noDot_renderDate d2)]
  dsimp only
  rw [jsDateParse_render d2 hd2]

/-- The two-sided date-window test against midnight boundary strings is the
half-open chronological interval test. -/
theorem matchesDate_bounds_iff (dt : CalDate) (t : CalTime) (s e : CalDate)
    (tailS tailE : List Char) (hdt : dateBounds dt) (ht : validTime t)
    (hs : dateBounds s) (he : dateBounds e)
    (h1 : lexLt ['Z'] tailS = false) (h2 : lexLt ['Z'] tailE = false) :
    (matchesDate (renderTs dt t)
        (String.mk (renderDate s ++ 'T' :: (renderTime ⟨0, 0, 0⟩ ++ tailS)))
        (String.mk (renderDate e ++ 'T' :: (renderTime ⟨0, 0, 0⟩ ++ tailE))) = true) ↔
      (instVal s ⟨0, 0, 0⟩ ≤ instVal dt t ∧
        instVal dt t < instVal e ⟨0, 0, 0⟩) := by
  have hts := timeOrd_lt t ht
  have ht0 : timeOrd ⟨0, 0, 0⟩ = 0 := rfl
  unfold matchesDate strGeB strLtB renderTs
  rw [show (String.mk (renderDate dt ++ 'T' :: (renderTime t ++ ['Z']))).data =
    renderDate dt ++ 'T' :: (renderTime t ++ ['Z']) from rfl]
  rw [show (String.mk (renderDate s ++ 'T' :: (renderTime ⟨0, 0, 0⟩ ++ tailS))).data =
    renderDate s ++ 'T' :: (renderTime ⟨0, 0, 0⟩ ++ tailS) from rfl]
  rw [show (String.mk (renderDate e ++ 'T' :: (renderTime ⟨0, 0, 0⟩ ++ tailE))).data =
    renderDate e ++ 'T' :: (renderTime ⟨0, 0, 0⟩ ++ tailE) from rfl]
  rw [Bool.and_eq_true, Bool.not_eq_true']
  constructor
  · rintro ⟨hge, hlt⟩
    have hlt2 := (lexLt_ts_boundary_iff dt e t tailE hdt he ht h2).mp hlt
    have hge2 : ¬ dateOrd dt < dateOrd s := by
      intro hc
      have h3 := (lexLt_ts_boundary_iff dt s t tailS hdt hs ht h1).mpr hc
      rw [hge] at h3
      cases h3
    unfold instVal
    rw [ht0]
    omega
  · rintro ⟨hge, hlt⟩
    unfold instVal at hge hlt
    rw [ht0] at hge hlt
    constructor
    · cases h3 : lexLt (renderDate dt ++ 'T' :: (renderTime t ++ ['Z']))
        (renderDate s ++ 'T' :: (renderTime ⟨0, 0, 0⟩ ++ tailS)) with
      | false => rfl
      | true =>
        have := (lexLt_ts_boundary_iff dt s t tailS hdt hs ht h1).mp h3
        omega
    · exact (lexLt_ts_boundary_iff dt e t tailE hdt he ht h2).mpr (by omega)

/-- C3: a single-date filter `YYYY-MM-DD` keeps exactly the advisories
whose timestamp lies in the half-open UTC day `[date 00:00:00Z,
date+1day 00:00:00Z)`, and a range filter
`YYYY-MM-DD..YYYY-MM-DD` keeps exactly
`[start 00:00:00Z, end+1day 00:00:00Z)` — the end date's full day
included; chronological order is represented by the order embedding
`instVal` of valid UTC date-times.  In particular
`"2026-01-01..2026-01-31"` matches a `2026-01-31T23:59:59Z` advisory but
not a `2026-02-01T00:00:00Z` one. -/
theorem C3_date_filter :
    (∀ (fld : DateField) (l r : List Advisory) (f dt : CalDate) (t : CalTime)
      (a : Advisory),
      validDate f → validDate dt → validTime t →
      fieldGet fld a = renderTs dt t →
      filterByDateRange l fld (String.mk (renderDate f)) = some r →
      (a ∈ r ↔ a ∈ l ∧
        (instVal f ⟨0, 0, 0⟩ ≤ instVal dt t ∧
          instVal dt t < instVal (nextDay f) ⟨0, 0, 0⟩))) ∧
    (∀ (fld : DateField) (l r : List Advisory) (d1 d2 dt : CalDate) (t : CalTime)
      (a : Advisory),
      validDate d1 → validDate d2 → validDate dt → validTime t →
      fieldGet fld a = renderTs dt t →
      filterByDateRange l fld
        (String.mk (renderDate d1 ++ '.' :: '.' :: renderDate d2)) = some r →
      (a ∈ r ↔ a ∈ l ∧
        (instVal d1 ⟨0, 0, 0⟩ ≤ instVal dt t ∧
          instVal dt t < instVal (nextDay d2) ⟨0, 0, 0⟩))) ∧
    (filterByDateRange
        [mkAdv "a" "2026-01-31T23:59:59Z" "u", mkAdv "b" "2026-02-01T00:00:00Z" "u"]
        .published_at "2026-01-01..2026-01-31" =
      some [mkAdv "a" "2026-01-31T23:59:59Z" "u"]) := by
  have hiso : ∀ d : CalDate, toISOMidnight d =
      String.mk (renderDate d ++ 'T' :: (renderTime ⟨0, 0, 0⟩ ++ ".000Z".data)) := by
    intro d
    unfold toISOMidnight
    rw [show ("00:00:00.000Z".data : List Char) =
      renderTime ⟨0, 0, 0⟩ ++ ".000Z".data from by decide]
  have hplain : ∀ d : CalDate, String.mk (renderDate d ++ "T00:00:00Z".data) =
      String.mk (renderDate d ++ 'T' :: (renderTime ⟨0, 0, 0⟩ ++ ['Z'])) := by
    intro d
    rw [show ("T00:00:00Z".data : List Char) =
      'T' :: (renderTime ⟨0, 0, 0⟩ ++ ['Z']) from by decide]
  refine ⟨?_, ?_, by decide⟩
  · intro fld l r f dt t a hf hdt ht hfield hfilter
    unfold filterByDateRange at hfilter
    rw [parseDateFilter_single f hf] at hfilter
    simp only [Option.some.injEq] at hfilter
    subst hfilter
    rw [List.mem_filter, hfield, hiso f, hiso (nextDay f)]
    rw [matchesDate_bounds_iff dt t f (nextDay f) _ _ (dateBounds_of_valid hdt) ht
      (dateBounds_of_valid hf) (dateBounds_nextDay hf) (by decide) (by decide)]
  · intro fld l r d1 d2 dt t a hd1 hd2 hdt ht hfield hfilter
    unfold filterByDateRange at hfilter
    rw [parseDateFilter_range d1 d2 hd2] at hfilter
    simp only [Option.some.injEq] at hfilter
    subst hfilter
    rw [List.mem_filter, hfield, hiso (nextDay d2), hplain d1]
    rw [matchesDate_bounds_iff dt t d1 (nextDay d2) _ _ (dateBounds_of_valid hdt) ht
      (dateBounds_of_valid hd1) (dateBounds_nextDay hd2) (by decide) (by decide)]

theorem C3_date_filter_witness :
    mkAdv "x" "2026-01-27T10:00:00Z" "u" ∈ [mkAdv "x" "2026-01-27T10:00:00Z" "u"] :=
  (C3_date_filter.1 DateField.published_at
    [mkAdv "x" "2026-01-27T10:00:00Z" "u"] [mkAdv "x" "2026-01-27T10:00:00Z" "u"]
    ⟨2026, 1, 27⟩ ⟨2026, 1, 27⟩ ⟨10, 0, 0⟩ (mkAdv "x" "2026-01-27T10:00:00Z" "u")
    (by decide) (by decide) (by decide) (by decide) (by decide)).mpr
    ⟨by decide, by decide, by decide⟩
